import Mathlib

/-!
# KingEngine render core: verification of the frozen claims

Shallow embedding of the render-core algorithms of the KingEngine repository
(`src/king/scene/frustum.cpp`, `src/king/render/d3d11/render_system_d3d11.cpp`,
`src/king/render/d3d11/shadows.cpp`).

Modelling conventions:
* C++ `float` values that take part in arithmetic (plane coefficients,
  transforms, bounding spheres, cascade splits) are modelled as exact numbers
  (`ℚ`, or `ℝ` where the source computes with `std::pow`); the claims under
  scrutiny are statements about the algorithms, not about rounding.
* `float` values that are only ever copied and hashed bit-by-bit (material
  albedo, roughness, metallic, emissive, scalar parameters) are modelled by
  their 32-bit patterns as `Nat`, which is exactly what `MakeMaterialKeyHash`
  consumes via `memcpy`.
* Pointers used only for identity (mesh pointers) are modelled as `Option Nat`
  (`none` = null pointer, `some i` = a non-null pointer with identity `i`).
* 64-bit unsigned overflow in the FNV-1a hash is modelled with explicit
  `% 2 ^ 64`.
* The conversion of a `Transform` to a world / normal matrix delegates to the
  external DirectXMath library (`XMMatrixRotationQuaternion`, `XMMatrixInverse`),
  which is outside the repository; the per-instance payload therefore carries
  the source fields of the transform, which determine those matrices.
-/

namespace KingSpec

/-- `Plane` from `src/king/scene/frustum.h`: unit-ish normal `n` and offset `d`.
The normalization performed by `NormalizePlane` is irrelevant to the claims. -/
structure Plane where
  nx : ℚ
  ny : ℚ
  nz : ℚ
  d : ℚ
deriving DecidableEq, Repr

/-- `Sphere` (center + radius) as used by `Frustum::Intersects`. -/
structure Sphere where
  cx : ℚ
  cy : ℚ
  cz : ℚ
  radius : ℚ
deriving DecidableEq, Repr

/-- `PlaneDistance` from `frustum.cpp`: signed distance of point `x` from plane. -/
def planeDistance (p : Plane) (x y z : ℚ) : ℚ :=
  p.nx * x + p.ny * y + p.nz * z + p.d

/-- `Frustum` from `src/king/scene/frustum.h`: six planes. -/
structure Frustum where
  planes : Fin 6 → Plane

/-- `Frustum::Intersects(const Sphere&)` from `frustum.cpp` lines 65-73:
reject as soon as one plane has signed distance below `-radius`. -/
def Frustum.intersects (f : Frustum) (s : Sphere) : Bool :=
  (List.finRange 6).all fun i =>
    !(decide (planeDistance (f.planes i) s.cx s.cy s.cz < -s.radius))

/-- C3: `Intersects` returns `false` iff some plane has signed distance below
`-radius`; consequently a radius-0 sphere at non-negative distance from all six
planes is accepted. -/
theorem frustum_intersects_iff (f : Frustum) (s : Sphere) :
    (f.intersects s = false ↔
      ∃ i : Fin 6, planeDistance (f.planes i) s.cx s.cy s.cz < -s.radius)
    ∧ (s.radius = 0 →
        (∀ i : Fin 6, 0 ≤ planeDistance (f.planes i) s.cx s.cy s.cz) →
        f.intersects s = true) := by
  constructor
  · unfold Frustum.intersects
    rw [← Bool.not_eq_true, List.all_eq_true]
    push_neg
    constructor
    · rintro ⟨i, _, hi⟩
      exact ⟨i, by simpa using hi⟩
    · rintro ⟨i, hi⟩
      exact ⟨i, List.mem_finRange i, by simpa using hi⟩
  · intro hr hall
    unfold Frustum.intersects
    rw [List.all_eq_true]
    intro i _
    have h : -s.radius ≤ planeDistance (f.planes i) s.cx s.cy s.cz := by
      rw [hr, neg_zero]; exact hall i
    simpa [not_lt] using h

/-- Witness for C3 at a concrete input: the six axis-aligned planes of the cube
`[-1,1]^3` and the radius-0 sphere at its center. -/
theorem frustum_intersects_iff_witness :
    ((Frustum.mk fun i =>
        [Plane.mk 1 0 0 1, Plane.mk (-1) 0 0 1, Plane.mk 0 1 0 1,
         Plane.mk 0 (-1) 0 1, Plane.mk 0 0 1 1, Plane.mk 0 0 (-1) 1].get i).intersects
      (Sphere.mk 0 0 0 0) = true) := by
  have h := frustum_intersects_iff
    (Frustum.mk fun i =>
      [Plane.mk 1 0 0 1, Plane.mk (-1) 0 0 1, Plane.mk 0 1 0 1,
       Plane.mk 0 (-1) 0 1, Plane.mk 0 0 1 1, Plane.mk 0 0 (-1) 1].get i)
    (Sphere.mk 0 0 0 0)
  exact h.2 rfl (by intro i; fin_cases i <;> norm_num [planeDistance])

/-! ## InstanceBufferManager (`RenderSystemD3D11::EnsureInstanceBuffer`, lines 1239-1266) -/

/-- The render system state touched by `EnsureInstanceBuffer`:
`mInstanceCapacity` and whether `mInstanceVB` is non-null. -/
structure InstanceBufferState where
  capacity : Nat
  hasBuffer : Bool
deriving DecidableEq, Repr

/-- The `while (newCapacity < requiredInstanceCount) newCapacity *= 2;` loop.
The fuel argument only bounds the iteration count so that the definition is
structural; `required` doublings always suffice from a positive start. -/
def growLoop : Nat → Nat → Nat → Nat
  | 0, cap, _ => cap
  | fuel + 1, cap, required => if cap < required then growLoop fuel (cap * 2) required else cap

/-- Doubling growth from `cap` until `required` is covered. -/
def growCapacity (cap required : Nat) : Nat :=
  growLoop required cap required

/-- `RenderSystemD3D11::EnsureInstanceBuffer`.  `deviceOk` models
`device.Device() != nullptr`; `createOk` models `CreateBuffer` succeeding.
On creation failure the old buffer has already been released, so the state
keeps its old capacity with no buffer; on success the capacity is updated. -/
def ensureInstanceBuffer (st : InstanceBufferState) (deviceOk : Bool)
    (required : Nat) (createOk : Bool) : InstanceBufferState :=
  if deviceOk = false then st
  else if required ≤ st.capacity ∧ st.hasBuffer = true then st
  else
    let base := if st.capacity = 0 then 1024 else st.capacity
    let newCap := growCapacity base required
    if createOk then ⟨newCap, true⟩ else ⟨st.capacity, false⟩

/-- Capacity of the form `1024 * 2 ^ k` (a power-of-two multiple of the
baseline). -/
def pow2Baseline (c : Nat) : Prop := ∃ k : Nat, c = 1024 * 2 ^ k

theorem growLoop_le (fuel cap required : Nat) : cap ≤ growLoop fuel cap required := by
  induction fuel generalizing cap with
  | zero => exact Nat.le_refl cap
  | succ n ih =>
    unfold growLoop
    by_cases h : cap < required
    · simp only [h, if_true]
      exact Nat.le_trans (Nat.le_mul_of_pos_right cap (by norm_num)) (ih (cap * 2))
    · simp [h]

theorem growLoop_pow2 (fuel cap required : Nat) :
    ∃ j : Nat, growLoop fuel cap required = cap * 2 ^ j := by
  induction fuel generalizing cap with
  | zero => exact ⟨0, by simp [growLoop]⟩
  | succ n ih =>
    unfold growLoop
    by_cases h : cap < required
    · simp only [h, if_true]
      obtain ⟨j, hj⟩ := ih (cap * 2)
      exact ⟨j + 1, by rw [hj]; ring⟩
    · exact ⟨0, by simp [h]⟩

theorem growLoop_reaches (fuel cap required : Nat) (h : required ≤ 2 ^ fuel * cap) :
    required ≤ growLoop fuel cap required := by
  induction fuel generalizing cap with
  | zero => simpa [growLoop] using h
  | succ n ih =>
    unfold growLoop
    by_cases hlt : cap < required
    · simp only [hlt, if_true]
      exact ih (cap * 2) (by calc required ≤ 2 ^ (n + 1) * cap := h
        _ = 2 ^ n * (cap * 2) := by ring)
    · simpa [hlt] using Nat.le_of_not_lt hlt

theorem growCapacity_reaches (cap required : Nat) (h : 1 ≤ cap) :
    required ≤ growCapacity cap required := by
  refine growLoop_reaches required cap required ?_
  calc required ≤ 2 ^ required := Nat.le_of_lt (Nat.lt_two_pow required)
  _ = 2 ^ required * 1 := by ring
  _ ≤ 2 ^ required * cap := Nat.mul_le_mul_left _ h

/-- C7 (amended): the capacity never decreases; a request at or below the
capacity leaves the state unchanged when the buffer exists; on a successful
call the capacity covers the request; and the capacity after any call is
either unchanged or a power-of-two multiple of the 1024 baseline. -/
theorem ensureInstanceBuffer_spec (st : InstanceBufferState) (deviceOk : Bool)
    (required : Nat) (createOk : Bool) :
    st.capacity ≤ (ensureInstanceBuffer st deviceOk required createOk).capacity
    ∧ (st.hasBuffer = true → required ≤ st.capacity →
        ensureInstanceBuffer st deviceOk required createOk = st)
    ∧ (deviceOk = true → createOk = true →
        required ≤ (ensureInstanceBuffer st deviceOk required createOk).capacity)
    ∧ (st.capacity = 0 ∨ pow2Baseline st.capacity →
        (ensureInstanceBuffer st deviceOk required createOk).capacity = 0
        ∨ pow2Baseline (ensureInstanceBuffer st deviceOk required createOk).capacity) := by
  unfold ensureInstanceBuffer
  by_cases hdev : deviceOk = false
  · subst hdev
    refine ⟨by simp, fun _ _ => by simp, fun h _ => by simp at h, fun h => by simpa using h⟩
  · have hdev' : deviceOk = true := by revert hdev; cases deviceOk <;> simp
    subst hdev'
    simp only [Bool.true_eq_false, if_false]
    by_cases hret : required ≤ st.capacity ∧ st.hasBuffer = true
    · refine ⟨by simp [hret], fun _ _ => by simp [hret], fun _ _ => ?_, fun h => by simpa [hret] using h⟩
      simp only [hret, if_true]
      exact hret.1
    · simp only [hret, if_false]
      have hbase1 : 1 ≤ (if st.capacity = 0 then 1024 else st.capacity) := by
        by_cases h0 : st.capacity = 0
        · simp [h0]
        · simp only [h0, if_false]
          omega
      have hbasele : st.capacity ≤ (if st.capacity = 0 then 1024 else st.capacity) := by
        by_cases h0 : st.capacity = 0 <;> simp [h0]
      cases createOk with
      | false =>
        refine ⟨by simp, ?_, fun _ h => by simp at h, fun h => by simpa using h⟩
        intro hb hcap
        exact absurd ⟨hcap, hb⟩ hret
      | true =>
        refine ⟨?_, ?_, ?_, ?_⟩
        · simp only [if_true]
          exact Nat.le_trans hbasele (growLoop_le _ _ _)
        · intro hb hcap
          exact absurd ⟨hcap, hb⟩ hret
        · intro _ _
          simp only [if_true]
          exact growCapacity_reaches _ _ hbase1
        · intro hinv
          right
          simp only [if_true]
          obtain ⟨j, hj⟩ := growLoop_pow2 required (if st.capacity = 0 then 1024 else st.capacity) required
          rcases hinv with h0 | ⟨k, hk⟩
          · exact ⟨j, by simpa [growCapacity, h0] using hj⟩
          · refine ⟨k + j, ?_⟩
            have h0 : st.capacity ≠ 0 := by rw [hk]; positivity
            calc (growCapacity (if st.capacity = 0 then 1024 else st.capacity) required)
                = st.capacity * 2 ^ j := by rw [growCapacity]; simpa [h0] using hj
            _ = 1024 * 2 ^ (k + j) := by rw [hk]; ring

/-- Counterexample to C7 as stated: with capacity 0 and no buffer yet, a
request of 0 (at or below the current capacity) does not leave the capacity
unchanged — the buffer is created at the 1024 baseline. -/
theorem ensureInstanceBuffer_counterexample :
    (ensureInstanceBuffer ⟨0, false⟩ true 0 true).capacity ≠ 0 := by decide

/-- Witness for C7 at a concrete input: a created buffer of capacity 1024,
request 2000, growing to 2048. -/
theorem ensureInstanceBuffer_spec_witness :
    (⟨1024, true⟩ : InstanceBufferState).capacity
      ≤ (ensureInstanceBuffer ⟨1024, true⟩ true 2000 true).capacity
    ∧ 2000 ≤ (ensureInstanceBuffer ⟨1024, true⟩ true 2000 true).capacity := by
  have h := ensureInstanceBuffer_spec ⟨1024, true⟩ true 2000 true
  exact ⟨h.1, h.2.2.1 rfl rfl⟩

/-! ## Scene snapshot (`RenderSystemD3D11::BuildSnapshot`, lines 996-1036) and
shadow-caster gathering (`RenderGeometryPass`, lines 2040-2057 and 2215-2222) -/

/-- `MaterialBlendMode` / `MaterialShadingModel`.  The enum declarations are in
a header that only exists outside `src/`; the constructors are those used by
`material.cpp` and `render_system_d3d11.cpp`, with default C++ numbering. -/
inductive MaterialBlendMode where
  | Opaque
  | AlphaBlend
deriving DecidableEq, Repr

inductive MaterialShadingModel where
  | Pbr
  | Unlit
  | RimGlow
deriving DecidableEq, Repr

def MaterialBlendMode.toU32 : MaterialBlendMode → Nat
  | .Opaque => 0
  | .AlphaBlend => 1

def MaterialShadingModel.toU32 : MaterialShadingModel → Nat
  | .Pbr => 0
  | .Unlit => 1
  | .RimGlow => 2

/-- `TextureSet` from `material.h`; paths are byte strings. -/
structure TextureSet where
  albedo : List Nat
  normal : List Nat
  metallicRoughness : List Nat
  emissive : List Nat
deriving DecidableEq, Repr

/-- `PbrMaterial` from `material.h` (plus the `blendMode` / `shadingModel`
fields used throughout the renderer).  Numeric fields are 32-bit float
patterns (`MakeMaterialKeyHash` consumes them via `memcpy`); `scalars` models
the contents of the `std::unordered_map<std::string, float>` as an
association list of (key bytes, float pattern). -/
structure PbrMaterial where
  albedoX : Nat
  albedoY : Nat
  albedoZ : Nat
  albedoW : Nat
  roughness : Nat
  metallic : Nat
  emissiveX : Nat
  emissiveY : Nat
  emissiveZ : Nat
  blendMode : MaterialBlendMode
  shadingModel : MaterialShadingModel
  shader : List Nat
  textures : TextureSet
  scalars : List (List Nat × Nat)
deriving DecidableEq, Repr

/-- `Transform` from `components.h` (parent links are resolved elsewhere). -/
structure Transform where
  posX : ℚ
  posY : ℚ
  posZ : ℚ
  rotX : ℚ
  rotY : ℚ
  rotZ : ℚ
  rotW : ℚ
  scaleX : ℚ
  scaleY : ℚ
  scaleZ : ℚ
deriving DecidableEq, Repr

/-- `MeshRenderer` from `components.h`. -/
structure MeshRenderer where
  mesh : Nat
  material : PbrMaterial
  lightMask : Nat
  castsShadows : Bool
  receivesShadows : Bool
deriving DecidableEq, Repr

/-- The fields of `Mesh` that `BuildSnapshot` reads: pointer identity and
culling bounds. -/
structure MeshRef where
  id : Nat
  boundsCenterX : ℚ
  boundsCenterY : ℚ
  boundsCenterZ : ℚ
  boundsRadius : ℚ
deriving DecidableEq, Repr

/-- `kInstFlag_ReceivesShadows` / `kInstFlag_CastsShadows`. -/
def kInstFlagReceivesShadows : Nat := 1
def kInstFlagCastsShadows : Nat := 2

/-- `SnapshotItem` from `render_system_d3d11.h` lines 281-294.  `mesh` is the
pointer identity (`none` = null). -/
structure SnapshotItem where
  mesh : Option Nat
  transform : Transform
  albedoX : Nat
  albedoY : Nat
  albedoZ : Nat
  albedoW : Nat
  roughness : Nat
  metallic : Nat
  material : PbrMaterial
  lightMask : Nat
  flags : Nat
  boundsCenterX : ℚ
  boundsCenterY : ℚ
  boundsCenterZ : ℚ
  boundsRadius : ℚ
deriving DecidableEq, Repr

/-- The body of the `BuildSnapshot` loop for one entity whose renderer,
transform and mesh all resolved (lines 1016-1034). -/
def buildSnapshotItem (r : MeshRenderer) (t : Transform) (m : MeshRef) : SnapshotItem :=
  { mesh := some m.id
    transform := t
    albedoX := r.material.albedoX
    albedoY := r.material.albedoY
    albedoZ := r.material.albedoZ
    albedoW := r.material.albedoW
    roughness := r.material.roughness
    metallic := r.material.metallic
    material := r.material
    lightMask := r.lightMask
    flags :=
      (if r.receivesShadows then kInstFlagReceivesShadows else 0)
      |||
      (if r.castsShadows ∧ r.material.blendMode ≠ MaterialBlendMode.AlphaBlend
        then kInstFlagCastsShadows else 0)
    boundsCenterX := m.boundsCenterX
    boundsCenterY := m.boundsCenterY
    boundsCenterZ := m.boundsCenterZ
    boundsRadius := m.boundsRadius }

/-- `RenderSystemD3D11::BuildSnapshot`: iterate the renderer entities; skip
entities whose renderer, transform or mesh fails to resolve.  Each list entry
carries the results of the three `TryGet` lookups for one entity. -/
def buildSnapshot (entities : List (Option MeshRenderer × Option Transform × Option MeshRef)) :
    List SnapshotItem :=
  entities.filterMap fun e =>
    match e with
    | (some r, some t, some m) => some (buildSnapshotItem r t m)
    | _ => none

/-- The caster-candidate filter of the directional shadow pass (lines
2040-2057): the casts-shadows flag bit, then the minimum screen-radius test,
then the per-cascade volume test.  The latter two go through DirectXMath and
are abstracted as predicates. -/
def shadowCasterList (items : List SnapshotItem)
    (passesSizeCull : SnapshotItem → Bool) (intersectsCascade : SnapshotItem → Bool) :
    List SnapshotItem :=
  items.filter fun s =>
    decide (s.flags &&& kInstFlagCastsShadows ≠ 0)
    && passesSizeCull s && intersectsCascade s

/-- The point-shadow caster filter (lines 2215-2222): flag bit set and mesh
non-null. -/
def pointShadowCasterList (items : List SnapshotItem) : List SnapshotItem :=
  items.filter fun s =>
    decide (s.flags &&& kInstFlagCastsShadows ≠ 0) && decide (s.mesh ≠ none)

/-- C10: an alpha-blended renderer produces a snapshot item with the
casts-shadows bit clear even when `castsShadows` is set, and such an item is
excluded from every cascade caster list and from the point-shadow caster
list. -/
theorem alphaBlend_item_never_casts (r : MeshRenderer) (t : Transform) (m : MeshRef)
    (hblend : r.material.blendMode = MaterialBlendMode.AlphaBlend) :
    (buildSnapshotItem r t m).flags &&& kInstFlagCastsShadows = 0
    ∧ (∀ (items : List SnapshotItem) (pSize pCasc : SnapshotItem → Bool),
        buildSnapshotItem r t m ∉ shadowCasterList items pSize pCasc)
    ∧ (∀ items : List SnapshotItem, buildSnapshotItem r t m ∉ pointShadowCasterList items) := by
  have hflag : (buildSnapshotItem r t m).flags &&& kInstFlagCastsShadows = 0 := by
    simp only [buildSnapshotItem, hblend]
    cases r.receivesShadows <;> cases r.castsShadows <;> decide
  refine ⟨hflag, ?_, ?_⟩
  · intro items pSize pCasc hmem
    rw [shadowCasterList, List.mem_filter] at hmem
    have := hmem.2
    simp only [Bool.and_eq_true, decide_eq_true_eq] at this
    exact this.1.1 hflag
  · intro items hmem
    rw [pointShadowCasterList, List.mem_filter] at hmem
    have := hmem.2
    simp only [Bool.and_eq_true, decide_eq_true_eq] at this
    exact this.1 hflag

/-- A concrete alpha-blended material used by witnesses. -/
def sampleAlphaMaterial : PbrMaterial :=
  { albedoX := 1065353216, albedoY := 1065353216, albedoZ := 1065353216, albedoW := 1065353216
    roughness := 1056964608, metallic := 0
    emissiveX := 0, emissiveY := 0, emissiveZ := 0
    blendMode := MaterialBlendMode.AlphaBlend
    shadingModel := MaterialShadingModel.Pbr
    shader := []
    textures := ⟨[], [], [], []⟩
    scalars := [] }

/-- The identity transform. -/
def idTransform : Transform := ⟨0, 0, 0, 0, 0, 0, 1, 1, 1, 1⟩

/-- Witness for C10 at a concrete input: an alpha-blended, shadow-casting
renderer is excluded from a concrete caster list built over its own item. -/
theorem alphaBlend_item_never_casts_witness :
    (buildSnapshotItem ⟨7, sampleAlphaMaterial, 0, true, true⟩ idTransform ⟨3, 0, 0, 0, 1⟩).flags
        &&& kInstFlagCastsShadows = 0
    ∧ (buildSnapshotItem ⟨7, sampleAlphaMaterial, 0, true, true⟩ idTransform ⟨3, 0, 0, 0, 1⟩
        ∉ shadowCasterList
            [buildSnapshotItem ⟨7, sampleAlphaMaterial, 0, true, true⟩ idTransform ⟨3, 0, 0, 0, 1⟩]
            (fun _ => true) (fun _ => true)) := by
  have h := alphaBlend_item_never_casts ⟨7, sampleAlphaMaterial, 0, true, true⟩
    idTransform ⟨3, 0, 0, 0, 1⟩ rfl
  exact ⟨h.1, h.2.1 _ _ _⟩

/-! ## Shadow gating (`ShadowsD3D11::ComputeCascades` lines 326-332 and
`RenderSystemD3D11::RenderGeometryPass` lines 1806-1865, 1907) -/

/-- Nullness of the GPU shadow resources checked by the `ComputeCascades`
early-out: `mShadowSRV`, `mShadowDSV[0]`, `mVSShadow`. -/
structure ShadowResources where
  srv : Bool
  dsv0 : Bool
  vsShadow : Bool
deriving DecidableEq, Repr

/-- The early-out of `ShadowsD3D11::ComputeCascades` (shadows.cpp line 331):
`false` iff the feature is disabled, the strength is non-positive, or any
shadow resource is missing. -/
def computeCascadesGate (enable : Bool) (strength : ℚ) (res : ShadowResources) : Bool :=
  !(enable = false ∨ strength ≤ 0 ∨ res.srv = false ∨ res.dsv0 = false ∨ res.vsShadow = false)

/-- `std::clamp` on rationals. -/
def clampQ (x lo hi : ℚ) : ℚ := max lo (min hi x)

/-- The frame-level shadow state computed by `RenderGeometryPass`:
whether the directional shadow pass runs (`doShadows` and the
`lightCB.shadowStrength > 0` test at line 1907), the strength written into the
light constant data (initialized to 0 at line 1762), and whether cascade
matrices were produced.  `samplersOk` models the sampler null-checks folded
into `doShadows` at line 1863. -/
structure FrameShadowState where
  doShadows : Bool
  shadowStrength : ℚ
  cascadesProduced : Bool
  shadowPassRuns : Bool
deriving DecidableEq, Repr

def frameShadowState (enableShadows haveSun sunCasts shadowsObj : Bool)
    (rawStrength : ℚ) (res : ShadowResources) (samplersOk : Bool) : FrameShadowState :=
  if enableShadows = true ∧ haveSun = true ∧ sunCasts = true ∧ shadowsObj = true then
    let strength := clampQ rawStrength 0 1
    if computeCascadesGate enableShadows strength res then
      let strengthOut := clampQ strength 0 1
      let ds := res.srv && samplersOk
      ⟨ds, strengthOut, true, ds && decide (0 < strengthOut) && shadowsObj⟩
    else ⟨false, 0, false, false⟩
  else ⟨false, 0, false, false⟩

/-- C9: shadows are reported disabled for the frame — no cascades, zero
strength in the light data, no shadow-pass draws — whenever the sun lacks the
shadow-casting flag, the effective strength is non-positive, or a shadow GPU
resource has not been created. -/
theorem frameShadow_disabled (enableShadows haveSun sunCasts shadowsObj : Bool)
    (rawStrength : ℚ) (res : ShadowResources) (samplersOk : Bool)
    (h : sunCasts = false ∨ rawStrength ≤ 0
        ∨ res.srv = false ∨ res.dsv0 = false ∨ res.vsShadow = false) :
    frameShadowState enableShadows haveSun sunCasts shadowsObj rawStrength res samplersOk
      = ⟨false, 0, false, false⟩ := by
  unfold frameShadowState
  by_cases hrun : enableShadows = true ∧ haveSun = true ∧ sunCasts = true ∧ shadowsObj = true
  · obtain ⟨he, hh, hc, ho⟩ := hrun
    subst he; subst hh; subst hc; subst ho
    have hgate : computeCascadesGate true (clampQ rawStrength 0 1) res = false := by
      unfold computeCascadesGate
      rcases h with h | h | h | h | h
      · exact absurd h (by simp)
      · have hcl : clampQ rawStrength 0 1 ≤ 0 := by
          unfold clampQ
          simp only [max_le_iff, le_refl, true_and]
          exact le_trans (min_le_right _ _) h
        simp [hcl]
      · simp [h]
      · simp [h]
      · simp [h]
    simp [hgate]
  · rw [if_neg hrun]

/-- Witness for C9 at a concrete input: all features on, resources present,
but the sun does not cast shadows. -/
theorem frameShadow_disabled_witness :
    frameShadowState true true false true 1 ⟨true, true, true⟩ true
      = ⟨false, 0, false, false⟩ := by
  exact frameShadow_disabled true true false true 1 ⟨true, true, true⟩ true (Or.inl rfl)

/-! ## Material content hash (`MakeMaterialKeyHash`, render_system_d3d11.cpp
lines 86-166) and the material GPU cache (`GetOrCreateMaterialGpu`, lines
2570-2625) -/

/-- FNV-1a 64-bit offset basis. -/
def fnvOffsetBasis : Nat := 1469598103934665603

/-- FNV-1a 64-bit prime. -/
def fnvPrime : Nat := 1099511628211

/-- `Fnv1a64`: fold the bytes through xor-then-multiply, with 64-bit
wrap-around made explicit. -/
def fnv1a64 (data : List Nat) (seed : Nat) : Nat :=
  data.foldl (fun h b => ((h ^^^ b) * fnvPrime) % 2 ^ 64) seed

/-- Little-endian bytes of a 32-bit value (`memcpy` on x86). -/
def bytesOfU32 (v : Nat) : List Nat :=
  [v % 256, v / 256 % 256, v / 65536 % 256, v / 16777216 % 256]

/-- `HashU32`. -/
def hashU32 (h v : Nat) : Nat := fnv1a64 (bytesOfU32 (v % 2 ^ 32)) h

/-- `HashF32`: the float is hashed through its 32-bit pattern, which is how
the model already represents it. -/
def hashF32 (h bits : Nat) : Nat := hashU32 h bits

/-- `HashString`: length-prefixed byte hash. -/
def hashString (h : Nat) (s : List Nat) : Nat :=
  let h1 := hashU32 h (s.length % 2 ^ 32)
  if s.isEmpty then h1 else fnv1a64 s h1

/-- ASCII lower-casing as in `EndsWithI`. -/
def lowerAscii (c : Nat) : Nat := if 65 ≤ c ∧ c ≤ 90 then c + 32 else c

/-- `EndsWithI`: case-insensitive suffix test. -/
def endsWithI (s suffix : List Nat) : Bool :=
  if suffix.length > s.length then false
  else ((s.drop (s.length - suffix.length)).zip suffix).all fun ab =>
    decide (lowerAscii ab.1 = lowerAscii ab.2)

/-- The bytes of `".hlsl"`. -/
def dotHlsl : List Nat := [46, 104, 108, 115, 108]

/-- The bytes of `".hlsli"`. -/
def dotHlsli : List Nat := [46, 104, 108, 115, 108, 105]

/-- `std::string operator<`: lexicographic byte order. -/
def lexLtB : List Nat → List Nat → Bool
  | _, [] => false
  | [], _ :: _ => true
  | a :: as, b :: bs => if a < b then true else if b < a then false else lexLtB as bs

/-- The `std::sort` comparator `a.first < b.first` of `MakeMaterialKeyHash`,
as the non-strict order used by `mergeSort`. -/
def scalarKeyLe (a b : List Nat × Nat) : Bool := !(lexLtB b.1 a.1)

/-- The sorted copy of the scalar-parameter map taken by
`MakeMaterialKeyHash`. -/
def sortedScalars (l : List (List Nat × Nat)) : List (List Nat × Nat) :=
  l.mergeSort scalarKeyLe

/-- `MakeMaterialKeyHash` (lines 123-166). -/
def makeMaterialKeyHash (m : PbrMaterial) : Nat :=
  let h := fnvOffsetBasis
  let h := if endsWithI m.shader dotHlsl || endsWithI m.shader dotHlsli
    then hashString h m.shader else h
  let h := hashU32 h m.blendMode.toU32
  let h := hashU32 h m.shadingModel.toU32
  let h := hashF32 h m.albedoX
  let h := hashF32 h m.albedoY
  let h := hashF32 h m.albedoZ
  let h := hashF32 h m.albedoW
  let h := hashF32 h m.roughness
  let h := hashF32 h m.metallic
  let h := hashF32 h m.emissiveX
  let h := hashF32 h m.emissiveY
  let h := hashF32 h m.emissiveZ
  let h := hashString h m.textures.albedo
  let h := hashString h m.textures.normal
  let h := hashString h m.textures.metallicRoughness
  let h := hashString h m.textures.emissive
  if m.scalars.isEmpty then h
  else (sortedScalars m.scalars).foldl (fun h kv => hashF32 (hashString h kv.1) kv.2) h

/-- The fields of a `MaterialGpu` cache entry whose construction is visible in
the repository (shader-program selection and texture resolution go through
GPU/filesystem collaborators and are represented by the inputs that determine
them). -/
structure MaterialGpu where
  alphaBlend : Bool
  usesCustomShader : Bool
  texAlbedo : List Nat
  texNormal : List Nat
  texMetallicRoughness : List Nat
  texEmissive : List Nat
deriving DecidableEq, Repr

/-- Construction of a new `MaterialGpu` from a material (lines 2576-2621).
`allowCustom` models the `KING_ALLOW_CUSTOM_SHADERS` environment gate. -/
def materialGpuOf (allowCustom : Bool) (mat : PbrMaterial) : MaterialGpu :=
  { alphaBlend := mat.blendMode = MaterialBlendMode.AlphaBlend
    usesCustomShader :=
      (endsWithI mat.shader dotHlsl || endsWithI mat.shader dotHlsli) && allowCustom
    texAlbedo := mat.textures.albedo
    texNormal := mat.textures.normal
    texMetallicRoughness := mat.textures.metallicRoughness
    texEmissive := mat.textures.emissive }

/-- `mMaterialCache` as an association list keyed by the 64-bit content
hash. -/
def MaterialCache : Type := List (Nat × MaterialGpu)

/-- `GetOrCreateMaterialGpu`: look up the key; on a miss construct the entry
and insert it.  The boolean reports whether a new entry (new GPU state) was
created. -/
def getOrCreateMaterialGpu (cache : MaterialCache) (allowCustom : Bool)
    (key : Nat) (mat : PbrMaterial) : MaterialGpu × MaterialCache × Bool :=
  match cache.find? (fun kv => kv.1 == key) with
  | some kv => (kv.2, cache, false)
  | none =>
    let mg := materialGpuOf allowCustom mat
    (mg, (key, mg) :: cache, true)

/-- Content equality of materials: equal fields, with the unordered scalar
map compared as a set of entries (its iteration order is unspecified). -/
def PbrMaterial.sameContent (a b : PbrMaterial) : Prop :=
  a.albedoX = b.albedoX ∧ a.albedoY = b.albedoY ∧ a.albedoZ = b.albedoZ
  ∧ a.albedoW = b.albedoW ∧ a.roughness = b.roughness ∧ a.metallic = b.metallic
  ∧ a.emissiveX = b.emissiveX ∧ a.emissiveY = b.emissiveY ∧ a.emissiveZ = b.emissiveZ
  ∧ a.blendMode = b.blendMode ∧ a.shadingModel = b.shadingModel
  ∧ a.shader = b.shader ∧ a.textures = b.textures
  ∧ a.scalars.Perm b.scalars

theorem lexLtB_irrefl (a : List Nat) : lexLtB a a = false := by
  induction a with
  | nil => rfl
  | cons x xs ih => simp [lexLtB, ih]

theorem lexLtB_trans (a b c : List Nat) (h₁ : lexLtB a b = true) (h₂ : lexLtB b c = true) :
    lexLtB a c = true := by
  induction a generalizing b c with
  | nil =>
    cases c with
    | nil => cases b <;> simp [lexLtB] at h₁ h₂
    | cons y ys => rfl
  | cons x xs ih =>
    cases b with
    | nil => simp [lexLtB] at h₁
    | cons y ys =>
      cases c with
      | nil => simp [lexLtB] at h₂
      | cons z zs =>
        simp only [lexLtB] at h₁ h₂ ⊢
        by_cases hxy : x < y
        · by_cases hyz : y < z
          · simp [Nat.lt_trans hxy hyz]
          · by_cases hzy : z < y
            · simp only [hyz, if_false, hzy, if_true] at h₂; cases h₂
            · have : y = z := Nat.le_antisymm (Nat.le_of_not_lt hzy) (Nat.le_of_not_lt hyz)
              subst this
              simp [hxy]
        · by_cases hyx : y < x
          · simp only [hxy, if_false, hyx, if_true] at h₁; cases h₁
          · have hxyeq : x = y := Nat.le_antisymm (Nat.le_of_not_lt hyx) (Nat.le_of_not_lt hxy)
            subst hxyeq
            simp only [hxy, if_false, lt_irrefl, if_false] at h₁
            by_cases hyz : x < z
            · simp [hyz]
            · by_cases hzy : z < x
              · simp only [hyz, if_false, hzy, if_true] at h₂; cases h₂
              · have : x = z := Nat.le_antisymm (Nat.le_of_not_lt hzy) (Nat.le_of_not_lt hyz)
                subst this
                simp only [lt_irrefl, if_false] at h₂ ⊢
                exact ih ys zs h₁ h₂

theorem lexLtB_asymm (a b : List Nat) (h₁ : lexLtB a b = true) (h₂ : lexLtB b a = true) :
    False := by
  have := lexLtB_trans a b a h₁ h₂
  rw [lexLtB_irrefl] at this
  cases this

theorem lexLtB_conn (a b : List Nat) (h₁ : lexLtB a b = false) (h₂ : lexLtB b a = false) :
    a = b := by
  induction a generalizing b with
  | nil => cases b with
    | nil => rfl
    | cons y ys => simp [lexLtB] at h₁
  | cons x xs ih =>
    cases b with
    | nil => simp [lexLtB] at h₂
    | cons y ys =>
      simp only [lexLtB] at h₁ h₂
      by_cases hxy : x < y
      · simp [hxy] at h₁
      · by_cases hyx : y < x
        · simp [hyx] at h₂
        · have hxyeq : x = y := Nat.le_antisymm (Nat.le_of_not_lt hyx) (Nat.le_of_not_lt hxy)
          subst hxyeq
          simp only [lt_irrefl, if_false] at h₁ h₂
          rw [ih ys h₁ h₂]

/-- Strict ordering of scalar entries by key. -/
def scalarKeyLt (a b : List Nat × Nat) : Prop := lexLtB a.1 b.1 = true

theorem scalarKeyLe_trans (a b c : List Nat × Nat)
    (hab : scalarKeyLe a b = true) (hbc : scalarKeyLe b c = true) :
    scalarKeyLe a c = true := by
  unfold scalarKeyLe at hab hbc ⊢
  rw [Bool.not_eq_true'] at hab hbc ⊢
  by_cases hca : lexLtB c.1 a.1 = true
  · exfalso
    by_cases hab' : lexLtB a.1 b.1 = true
    · have hcb := lexLtB_trans c.1 a.1 b.1 hca hab'
      rw [hbc] at hcb
      cases hcb
    · have heq := lexLtB_conn a.1 b.1 (Bool.not_eq_true _ ▸ (by simpa using hab')) hab
      rw [← heq] at hbc
      rw [hbc] at hca
      cases hca
  · simpa using hca

theorem scalarKeyLe_total (a b : List Nat × Nat) :
    scalarKeyLe a b || scalarKeyLe b a := by
  unfold scalarKeyLe
  by_cases h : lexLtB b.1 a.1 = true
  · have h2 : lexLtB a.1 b.1 = false := by
      by_cases hx : lexLtB a.1 b.1 = true
      · exact absurd (lexLtB_asymm a.1 b.1 hx h) (fun f => f)
      · simpa using hx
    simp [h2]
  · have h2 : lexLtB b.1 a.1 = false := by simpa using h
    simp [h2]

theorem pairwise_lt_of_le_ne (l : List (List Nat × Nat))
    (hle : l.Pairwise (fun a b => scalarKeyLe a b = true))
    (hne : l.Pairwise (fun a b => a.1 ≠ b.1)) :
    l.Pairwise scalarKeyLt := by
  induction l with
  | nil => exact List.Pairwise.nil
  | cons x xs ih =>
    rcases hle with _ | ⟨hle1, hle2⟩
    rcases hne with _ | ⟨hne1, hne2⟩
    refine List.Pairwise.cons ?_ (ih hle2 hne2)
    intro y hy
    have h1 := hle1 y hy
    have h2 := hne1 y hy
    unfold scalarKeyLe at h1
    rw [Bool.not_eq_true'] at h1
    unfold scalarKeyLt
    by_cases hx : lexLtB x.1 y.1 = true
    · exact hx
    · exact absurd (lexLtB_conn x.1 y.1 (by simpa using hx) h1) h2

theorem sortedScalars_eq_of_perm (l₁ l₂ : List (List Nat × Nat))
    (hperm : l₁.Perm l₂) (hnd : (l₁.map Prod.fst).Nodup) :
    sortedScalars l₁ = sortedScalars l₂ := by
  have hp₁ : (sortedScalars l₁).Perm l₁ := List.mergeSort_perm l₁ scalarKeyLe
  have hp₂ : (sortedScalars l₂).Perm l₂ := List.mergeSort_perm l₂ scalarKeyLe
  have hs₁ : (sortedScalars l₁).Pairwise (fun a b => scalarKeyLe a b = true) := by
    simpa using List.sorted_mergeSort scalarKeyLe_trans scalarKeyLe_total l₁
  have hs₂ : (sortedScalars l₂).Pairwise (fun a b => scalarKeyLe a b = true) := by
    simpa using List.sorted_mergeSort scalarKeyLe_trans scalarKeyLe_total l₂
  have hnd₂ : (l₂.map Prod.fst).Nodup := (hperm.map Prod.fst).nodup_iff.mp hnd
  have hne₁ : (sortedScalars l₁).Pairwise (fun a b => a.1 ≠ b.1) := by
    rw [← List.pairwise_map]
    exact ((hp₁.map Prod.fst).nodup_iff.mpr hnd : _)
  have hne₂ : (sortedScalars l₂).Pairwise (fun a b => a.1 ≠ b.1) := by
    rw [← List.pairwise_map]
    exact ((hp₂.map Prod.fst).nodup_iff.mpr hnd₂ : _)
  haveI : IsAntisymm (List Nat × Nat) scalarKeyLt := by
    constructor
    intro a b h1 h2
    exact absurd (lexLtB_asymm a.1 b.1 h1 h2) (fun f => f)
  have hperm2 : (sortedScalars l₁).Perm (sortedScalars l₂) := (hp₁.trans hperm).trans hp₂.symm
  have hlt₁ : (sortedScalars l₁).Sorted scalarKeyLt := pairwise_lt_of_le_ne _ hs₁ hne₁
  have hlt₂ : (sortedScalars l₂).Sorted scalarKeyLt := pairwise_lt_of_le_ne _ hs₂ hne₂
  exact List.eq_of_perm_of_sorted hperm2 hlt₁ hlt₂

/-- C8: the content hash is determined by the material's content (including
scalar-map contents irrespective of unordered-map iteration order), and a
second `GetOrCreateMaterialGpu` call with the same key returns the same cache
entry, leaves the cache unchanged, and creates no new GPU state. -/
theorem materialCache_dedup (m₁ m₂ : PbrMaterial)
    (hsame : m₁.sameContent m₂) (hnd : (m₁.scalars.map Prod.fst).Nodup)
    (cache : MaterialCache) (allowCustom : Bool) (key : Nat) :
    makeMaterialKeyHash m₁ = makeMaterialKeyHash m₂
    ∧ getOrCreateMaterialGpu (getOrCreateMaterialGpu cache allowCustom key m₁).2.1
        allowCustom key m₁
      = ((getOrCreateMaterialGpu cache allowCustom key m₁).1,
         (getOrCreateMaterialGpu cache allowCustom key m₁).2.1, false) := by
  constructor
  · obtain ⟨h1, h2, h3, h4, h5, h6, h7, h8, h9, h10, h11, h12, h13, hps⟩ := hsame
    have hsorted := sortedScalars_eq_of_perm m₁.scalars m₂.scalars hps hnd
    have hlen := hps.length_eq
    have hempty : m₁.scalars.isEmpty = m₂.scalars.isEmpty := by
      cases hm1 : m₁.scalars with
      | nil =>
        cases hm2 : m₂.scalars with
        | nil => rfl
        | cons b l2 => rw [hm1, hm2] at hlen; cases hlen
      | cons a l =>
        cases hm2 : m₂.scalars with
        | nil => rw [hm1, hm2] at hlen; cases hlen
        | cons b l2 => rfl
    unfold makeMaterialKeyHash
    rw [h1, h2, h3, h4, h5, h6, h7, h8, h9, h10, h11, h12, h13, hsorted, hempty]
  · cases hfind : cache.find? (fun kv => kv.1 == key) with
    | some kv => simp [getOrCreateMaterialGpu, hfind]
    | none => simp [getOrCreateMaterialGpu, hfind, List.find?]

/-- One scalar entry (key bytes `"a"`, value pattern 1). -/
def scalarA : List Nat × Nat := ([97], 1)

/-- One scalar entry (key bytes `"b"`, value pattern 2). -/
def scalarB : List Nat × Nat := ([98], 2)

/-- A material whose scalar map lists `a` before `b`. -/
def matScalarsAB : PbrMaterial := { sampleAlphaMaterial with scalars := [scalarA, scalarB] }

/-- The same material content with the scalar entries in the other order. -/
def matScalarsBA : PbrMaterial := { sampleAlphaMaterial with scalars := [scalarB, scalarA] }

/-- Witness for C8 at a concrete input: two materials with identical content
written in different scalar-map orders, and a concrete empty cache. -/
theorem materialCache_dedup_witness :
    makeMaterialKeyHash matScalarsAB = makeMaterialKeyHash matScalarsBA
    ∧ getOrCreateMaterialGpu (getOrCreateMaterialGpu [] true 5 matScalarsAB).2.1
        true 5 matScalarsAB
      = ((getOrCreateMaterialGpu [] true 5 matScalarsAB).1,
         (getOrCreateMaterialGpu [] true 5 matScalarsAB).2.1, false) :=
  materialCache_dedup matScalarsAB matScalarsBA
    ⟨rfl, rfl, rfl, rfl, rfl, rfl, rfl, rfl, rfl, rfl, rfl, rfl, rfl,
      List.Perm.swap scalarB scalarA []⟩
    (by decide) [] true 5

/-! ## Frame preparation (`RenderSystemD3D11::BuildPreparedFrame`, lines
1063-1176): culling, material dedup, sort, batch emission -/

/-- `InstanceData` (render_system_d3d11.h lines 270-279).  The world and
normal matrices are produced from the transform by the external DirectXMath
library (`TransformToWorld` / `WorldToNormalMatrix`), so the payload carries
the transform that determines them, together with the copied fields. -/
structure InstanceData where
  transform : Transform
  albedoX : Nat
  albedoY : Nat
  albedoZ : Nat
  albedoW : Nat
  roughness : Nat
  metallic : Nat
  lightMask : Nat
  flags : Nat
deriving DecidableEq, Repr

/-- The local `struct Item` of `BuildPreparedFrame` (lines 1070-1075). -/
structure VisibleItem where
  mesh : Nat
  inst : InstanceData
  materialIndex : Nat
deriving DecidableEq, Repr

/-- `Batch` (render_system_d3d11.h lines 296-302). -/
structure Batch where
  mesh : Option Nat
  materialIndex : Nat
  startInstance : Nat
  instanceCount : Nat
deriving DecidableEq, Repr

/-- `PreparedFrame` (render_system_d3d11.h lines 304-310). -/
structure PreparedFrame where
  instances : List InstanceData
  batches : List Batch
  materials : List PbrMaterial
  materialKeys : List Nat
deriving DecidableEq, Repr

/-- The world-space bounding sphere computed for culling (lines 1091-1101):
center translated by the item position, radius scaled by the maximum axis
scale (via the nested conditionals of the source). -/
def snapshotSphere (s : SnapshotItem) : Sphere :=
  let sx := s.transform.scaleX
  let sy := s.transform.scaleY
  let sz := s.transform.scaleZ
  let maxScale := if sx > sy then (if sx > sz then sx else sz) else (if sy > sz then sy else sz)
  { cx := s.transform.posX + s.boundsCenterX
    cy := s.transform.posY + s.boundsCenterY
    cz := s.transform.posZ + s.boundsCenterZ
    radius := s.boundsRadius * maxScale }

/-- An item survives the per-item gate of the culling loop: non-null mesh and
a sphere-frustum hit. -/
def survivesCull (frustum : Frustum) (s : SnapshotItem) : Bool :=
  match s.mesh with
  | none => false
  | some _ => frustum.intersects (snapshotSphere s)

/-- The instance payload copied from a snapshot item (lines 1123-1132). -/
def instOf (s : SnapshotItem) : InstanceData :=
  { transform := s.transform
    albedoX := s.albedoX
    albedoY := s.albedoY
    albedoZ := s.albedoZ
    albedoW := s.albedoW
    roughness := s.roughness
    metallic := s.metallic
    lightMask := s.lightMask
    flags := s.flags }

/-- Accumulator of the culling / material-dedup loop: the frame's materials
and keys under construction plus the `visible` scratch list. -/
structure BuildAccum where
  materials : List PbrMaterial
  materialKeys : List Nat
  visible : List VisibleItem
deriving DecidableEq, Repr

/-- One iteration of the culling loop (lines 1085-1134).  The
`materialKeyToIndex` map always holds exactly the keys already in
`materialKeys` with their positions, so the lookup is a position lookup in
`materialKeys`. -/
def cullStep (frustum : Frustum) (st : BuildAccum) (s : SnapshotItem) : BuildAccum :=
  match s.mesh with
  | none => st
  | some mid =>
    if frustum.intersects (snapshotSphere s) = false then st
    else
      let k := makeMaterialKeyHash s.material
      match st.materialKeys.findIdx? (fun x => x == k) with
      | some i => { st with visible := st.visible ++ [⟨mid, instOf s, i⟩] }
      | none =>
        { materials := st.materials ++ [s.material]
          materialKeys := st.materialKeys ++ [k]
          visible := st.visible ++ [⟨mid, instOf s, st.materials.length⟩] }

/-- The culling / dedup phase over the snapshot. -/
def cullAndDedup (frustum : Frustum) (items : List SnapshotItem) : BuildAccum :=
  items.foldl (cullStep frustum) ⟨[], [], []⟩

/-- The `std::sort` comparator (lines 1140-1145): mesh pointer identity, then
material slot. -/
def itemLt (a b : VisibleItem) : Bool :=
  if a.mesh ≠ b.mesh then decide (a.mesh < b.mesh) else decide (a.materialIndex < b.materialIndex)

/-- Insertion of one element into a run sorted by `itemLt` (keep `x` before
`y` unless `y` must precede it). -/
def insertVisible (x : VisibleItem) : List VisibleItem → List VisibleItem
  | [] => [x]
  | y :: ys => if itemLt y x then y :: insertVisible x ys else x :: y :: ys

/-- The sort of the visible list.  `std::sort` leaves the order of
`itemLt`-equivalent items unspecified; any sorted permutation is a faithful
model, and an insertion sort keeps the definition kernel-computable. -/
def sortVisible : List VisibleItem → List VisibleItem
  | [] => []
  | x :: xs => insertVisible x (sortVisible xs)

/-- `if (currentBatch.mesh) outFrame.batches.push_back(currentBatch);` -/
def flushBatch (cb : Batch) (bs : List Batch) : List Batch :=
  if cb.mesh.isSome then bs ++ [cb] else bs

/-- The batch-emission loop (lines 1150-1175), with the current mesh/material
trackers, the open batch, and the output arrays as explicit state. -/
def batchLoop : List VisibleItem → Option Nat → Nat → Batch → List Batch →
    List InstanceData → List Batch × List InstanceData
  | [], _, _, cb, bs, is => (flushBatch cb bs, is)
  | v :: rest, curMesh, curMat, cb, bs, is =>
    if some v.mesh ≠ curMesh ∨ v.materialIndex ≠ curMat then
      -- the fresh batch is created with count 0 and the common instance push
      -- below the branch immediately increments it to 1
      batchLoop rest (some v.mesh) v.materialIndex
        ⟨some v.mesh, v.materialIndex, is.length, 1⟩
        (flushBatch cb bs) (is ++ [v.inst])
    else
      batchLoop rest curMesh curMat
        { cb with instanceCount := cb.instanceCount + 1 } bs (is ++ [v.inst])

/-- `RenderSystemD3D11::BuildPreparedFrame`. -/
def buildPreparedFrame (items : List SnapshotItem) (frustum : Frustum) : PreparedFrame :=
  let st := cullAndDedup frustum items
  if st.visible.isEmpty then
    { instances := [], batches := [], materials := st.materials, materialKeys := st.materialKeys }
  else
    let sorted := sortVisible st.visible
    let out := batchLoop sorted none 0 ⟨none, 0, 0, 0⟩ [] []
    { instances := out.2, batches := out.1
      materials := st.materials, materialKeys := st.materialKeys }

/-- Batches tile the index interval from `start` to `stop` consecutively:
each batch starts where its predecessor ended. -/
def batchesChain : Nat → List Batch → Nat → Prop
  | start, [], stop => start = stop
  | start, b :: bs, stop => b.startInstance = start ∧ batchesChain (start + b.instanceCount) bs stop

/-- Every instance slot covered by batch `b` holds the payload of an item of
`S` whose mesh and material slot are those of the batch. -/
def batchProv (S : List VisibleItem) (is : List InstanceData) (b : Batch) : Prop :=
  ∀ i : Nat, b.startInstance ≤ i → i < b.startInstance + b.instanceCount →
    ∃ v : VisibleItem, v ∈ S ∧ is[i]? = some v.inst
      ∧ b.mesh = some v.mesh ∧ b.materialIndex = v.materialIndex

theorem batchesChain_append (bs : List Batch) (b : Batch) (s m : Nat)
    (h : batchesChain s bs m) (hb : b.startInstance = m) :
    batchesChain s (bs ++ [b]) (m + b.instanceCount) := by
  induction bs generalizing s with
  | nil =>
    have hs : s = m := h
    exact ⟨by rw [hb, hs], by rw [hs]; rfl⟩
  | cons a as ih =>
    exact ⟨h.1, ih _ h.2⟩

theorem batchesChain_sum (bs : List Batch) (s e : Nat) (h : batchesChain s bs e) :
    s + (bs.map Batch.instanceCount).sum = e := by
  induction bs generalizing s with
  | nil => simpa [batchesChain] using h
  | cons b rest ih =>
    have h2 := ih _ h.2
    simp only [List.map_cons, List.sum_cons]
    omega

theorem batchProv_append (S : List VisibleItem) (is : List InstanceData) (b : Batch)
    (x : InstanceData) (h : batchProv S is b) : batchProv S (is ++ [x]) b := by
  intro i h1 h2
  obtain ⟨v, hv, hget, hm, hmat⟩ := h i h1 h2
  have hlt : i < is.length := (List.getElem?_eq_some.mp hget).1
  exact ⟨v, hv, by rw [List.getElem?_append_left hlt]; exact hget, hm, hmat⟩

theorem batchLoop_spec (S : List VisibleItem) (M : Nat)
    (hSmat : ∀ v ∈ S, v.materialIndex < M) :
    ∀ (vs : List VisibleItem) (curMesh : Option Nat) (curMat : Nat) (cb : Batch)
      (bs : List Batch) (is : List InstanceData),
      (∀ v ∈ vs, v ∈ S) →
      batchesChain 0 bs cb.startInstance →
      cb.startInstance + cb.instanceCount = is.length →
      (cb.mesh = none →
        curMesh = none ∧ bs = [] ∧ cb.startInstance = 0 ∧ cb.instanceCount = 0 ∧ is = []) →
      (cb.mesh.isSome = true → cb.mesh = curMesh ∧ cb.materialIndex = curMat) →
      (∀ b ∈ bs, batchProv S is b) →
      (cb.mesh.isSome = true → batchProv S is cb) →
      (∀ b ∈ bs, b.materialIndex < M) →
      (cb.mesh.isSome = true → cb.materialIndex < M) →
      batchesChain 0 (batchLoop vs curMesh curMat cb bs is).1
          (batchLoop vs curMesh curMat cb bs is).2.length
      ∧ (batchLoop vs curMesh curMat cb bs is).2.length = is.length + vs.length
      ∧ (∀ b ∈ (batchLoop vs curMesh curMat cb bs is).1,
          batchProv S (batchLoop vs curMesh curMat cb bs is).2 b)
      ∧ (∀ b ∈ (batchLoop vs curMesh curMat cb bs is).1, b.materialIndex < M) := by
  intro vs
  induction vs with
  | nil =>
    intro curMesh curMat cb bs is _ hchain hlen hnone hcur hKbs hKcb hmat hcbmat
    simp only [batchLoop]
    cases hcbm : cb.mesh with
    | none =>
      obtain ⟨_, hbs, hst, hct, his⟩ := hnone hcbm
      subst hbs his
      refine ⟨?_, by simp, ?_, ?_⟩
      · simp [flushBatch, hcbm, batchesChain, hst]
      · intro b hb
        simp [flushBatch, hcbm] at hb
      · intro b hb
        simp [flushBatch, hcbm] at hb
    | some m =>
      have hsome : cb.mesh.isSome = true := by rw [hcbm]; rfl
      have hfl : flushBatch cb bs = bs ++ [cb] := by simp [flushBatch, hcbm]
      refine ⟨?_, by simp, ?_, ?_⟩
      · rw [hfl]
        have := batchesChain_append bs cb 0 cb.startInstance hchain rfl
        rwa [hlen] at this
      · intro b hb
        rw [hfl, List.mem_append] at hb
        rcases hb with hb | hb
        · exact hKbs b hb
        · rw [List.mem_singleton] at hb
          subst hb
          exact hKcb hsome
      · intro b hb
        rw [hfl, List.mem_append] at hb
        rcases hb with hb | hb
        · exact hmat b hb
        · rw [List.mem_singleton] at hb
          subst hb
          exact hcbmat hsome
  | cons v rest ih =>
    intro curMesh curMat cb bs is hsub hchain hlen hnone hcur hKbs hKcb hmat hcbmat
    have hvS : v ∈ S := hsub v (List.mem_cons_self v rest)
    have hsubr : ∀ w ∈ rest, w ∈ S := fun w hw => hsub w (List.mem_cons_of_mem v hw)
    by_cases hcond : some v.mesh ≠ curMesh ∨ v.materialIndex ≠ curMat
    · rw [batchLoop, if_pos hcond]
      have hchain' : batchesChain 0 (flushBatch cb bs) is.length := by
        cases hcbm : cb.mesh with
        | none =>
          obtain ⟨_, hbs, hst, hct, his⟩ := hnone hcbm
          subst hbs his
          simp [flushBatch, hcbm, batchesChain]
        | some m =>
          have hfl : flushBatch cb bs = bs ++ [cb] := by simp [flushBatch, hcbm]
          rw [hfl]
          have := batchesChain_append bs cb 0 cb.startInstance hchain rfl
          rwa [hlen] at this
      have hKbs' : ∀ b ∈ flushBatch cb bs, batchProv S (is ++ [v.inst]) b := by
        intro b hb
        unfold flushBatch at hb
        cases hcbm : cb.mesh with
        | none =>
          rw [hcbm] at hb
          simp only [Option.isSome_none, Bool.false_eq_true, if_false] at hb
          exact batchProv_append S is b v.inst (hKbs b hb)
        | some m =>
          rw [hcbm] at hb
          simp only [Option.isSome_some, if_true, List.mem_append, List.mem_singleton] at hb
          rcases hb with hb | hb
          · exact batchProv_append S is b v.inst (hKbs b hb)
          · subst hb
            exact batchProv_append S is b v.inst (hKcb (by rw [hcbm]; rfl))
      have hmat' : ∀ b ∈ flushBatch cb bs, b.materialIndex < M := by
        intro b hb
        unfold flushBatch at hb
        cases hcbm : cb.mesh with
        | none =>
          rw [hcbm] at hb
          simp only [Option.isSome_none, Bool.false_eq_true, if_false] at hb
          exact hmat b hb
        | some m =>
          rw [hcbm] at hb
          simp only [Option.isSome_some, if_true, List.mem_append, List.mem_singleton] at hb
          rcases hb with hb | hb
          · exact hmat b hb
          · subst hb
            exact hcbmat (by rw [hcbm]; rfl)
      have hres := ih (some v.mesh) v.materialIndex
        ⟨some v.mesh, v.materialIndex, is.length, 1⟩ (flushBatch cb bs) (is ++ [v.inst])
        hsubr hchain' (by simp) (fun h => Option.noConfusion h) (fun _ => ⟨rfl, rfl⟩)
        hKbs'
        (fun _ => by
          intro i h1 h2
          simp only at h1 h2
          have hieq : i = is.length := by omega
          subst hieq
          exact ⟨v, hvS, List.getElem?_concat_length is v.inst, rfl, rfl⟩)
        hmat'
        (fun _ => hSmat v hvS)
      refine ⟨hres.1, ?_, hres.2.2.1, hres.2.2.2⟩
      rw [hres.2.1]
      simp only [List.length_append, List.length_cons, List.length_nil]
      omega
    · rw [batchLoop, if_neg hcond]
      push_neg at hcond
      obtain ⟨hm, hmi⟩ := hcond
      have hsome : cb.mesh.isSome = true := by
        cases hcbm : cb.mesh with
        | none =>
          obtain ⟨hcm, _, _, _, _⟩ := hnone hcbm
          rw [hcm] at hm
          cases hm
        | some _ => rfl
      obtain ⟨hcm, hcmat⟩ := hcur hsome
      have hcbmesh : cb.mesh = some v.mesh := by rw [hcm, ← hm]
      have hcbmi : cb.materialIndex = v.materialIndex := by rw [hcmat, hmi]
      have hres := ih curMesh curMat
        { cb with instanceCount := cb.instanceCount + 1 } bs (is ++ [v.inst])
        hsubr (by simpa using hchain) (by simp; omega)
        (fun h => by rw [hcbmesh] at h; cases h)
        (fun _ => ⟨hcbmesh.symm ▸ hcm, hcmat⟩)
        (fun b hb => batchProv_append S is b v.inst (hKbs b hb))
        (fun _ => by
          intro i h1 h2
          simp only at h1 h2
          by_cases hi : i < cb.startInstance + cb.instanceCount
          · obtain ⟨w, hw, hget, hwm, hwmat⟩ := hKcb hsome i h1 hi
            have hlt : i < is.length := (List.getElem?_eq_some.mp hget).1
            exact ⟨w, hw, by rw [List.getElem?_append_left hlt]; exact hget, hwm, hwmat⟩
          · have hieq : i = is.length := by omega
            subst hieq
            exact ⟨v, hvS, List.getElem?_concat_length is v.inst, hcbmesh, hcbmi⟩)
        hmat
        (fun _ => hcbmi ▸ hSmat v hvS)
      refine ⟨hres.1, ?_, hres.2.2.1, hres.2.2.2⟩
      rw [hres.2.1]
      simp only [List.length_append, List.length_cons, List.length_nil]
      omega

theorem findIdx?_lt_length {p : Nat → Bool} {l : List Nat} {i : Nat}
    (h : l.findIdx? p = some i) : i < l.length :=
  (List.findIdx?_eq_some_iff_findIdx_eq.mp h).1

theorem cullAndDedup_inv (frustum : Frustum) :
    ∀ (items : List SnapshotItem) (st : BuildAccum),
      st.materials.length = st.materialKeys.length →
      (∀ v ∈ st.visible, v.materialIndex < st.materials.length) →
      (items.foldl (cullStep frustum) st).materials.length
          = (items.foldl (cullStep frustum) st).materialKeys.length
      ∧ (∀ v ∈ (items.foldl (cullStep frustum) st).visible,
          v.materialIndex < (items.foldl (cullStep frustum) st).materials.length)
      ∧ (items.foldl (cullStep frustum) st).visible.length
          = st.visible.length + items.countP (survivesCull frustum) := by
  intro items
  induction items with
  | nil =>
    intro st h1 h2
    exact ⟨h1, h2, by simp⟩
  | cons s rest ih =>
    intro st h1 h2
    rw [List.foldl_cons, List.countP_cons]
    rcases hm : s.mesh with _ | mid
    · have hst : cullStep frustum st s = st := by unfold cullStep; rw [hm]
      have hsv : survivesCull frustum s = false := by unfold survivesCull; rw [hm]
      rw [hst, hsv]
      obtain ⟨a, b, c⟩ := ih st h1 h2
      exact ⟨a, b, by rw [c]; simp⟩
    · by_cases hint : frustum.intersects (snapshotSphere s) = false
      · have hst : cullStep frustum st s = st := by
          unfold cullStep; rw [hm]; simp [hint]
        have hsv : survivesCull frustum s = false := by
          unfold survivesCull; rw [hm]; exact hint
        rw [hst, hsv]
        obtain ⟨a, b, c⟩ := ih st h1 h2
        exact ⟨a, b, by rw [c]; simp⟩
      · have hint' : frustum.intersects (snapshotSphere s) = true := by
          revert hint; cases frustum.intersects (snapshotSphere s) <;> simp
        have hsv : survivesCull frustum s = true := by
          unfold survivesCull; rw [hm]; exact hint'
        rcases hfind : st.materialKeys.findIdx? (fun x => x == makeMaterialKeyHash s.material)
          with _ | i
        · have hst : cullStep frustum st s =
              ⟨st.materials ++ [s.material],
               st.materialKeys ++ [makeMaterialKeyHash s.material],
               st.visible ++ [⟨mid, instOf s, st.materials.length⟩]⟩ := by
            unfold cullStep
            rw [hm]
            simp [hint', hfind]
          rw [hst]
          obtain ⟨a, b, c⟩ := ih
            ⟨st.materials ++ [s.material],
             st.materialKeys ++ [makeMaterialKeyHash s.material],
             st.visible ++ [⟨mid, instOf s, st.materials.length⟩]⟩
            (by simp [h1]) (by
            intro v hv
            simp only [List.mem_append, List.mem_singleton] at hv
            rcases hv with hv | hv
            · have := h2 v hv
              simp only [List.length_append, List.length_cons, List.length_nil]
              omega
            · subst hv
              simp)
          refine ⟨a, b, ?_⟩
          rw [c]
          simp only [List.length_append, List.length_cons, List.length_nil, hsv,
            eq_self_iff_true, if_true]
          omega
        · have hilt := findIdx?_lt_length hfind
          have hst : cullStep frustum st s =
              { st with visible := st.visible ++ [⟨mid, instOf s, i⟩] } := by
            unfold cullStep
            rw [hm]
            simp [hint', hfind]
          rw [hst]
          obtain ⟨a, b, c⟩ := ih
            ⟨st.materials, st.materialKeys, st.visible ++ [⟨mid, instOf s, i⟩]⟩
            h1 (by
            intro v hv
            simp only [List.mem_append, List.mem_singleton] at hv
            rcases hv with hv | hv
            · exact h2 v hv
            · subst hv
              show i < st.materials.length
              omega)
          refine ⟨a, b, ?_⟩
          rw [c]
          simp only [List.length_append, List.length_cons, List.length_nil, hsv,
            eq_self_iff_true, if_true]
          omega

theorem insertVisible_perm (x : VisibleItem) (l : List VisibleItem) :
    (insertVisible x l).Perm (x :: l) := by
  induction l with
  | nil => exact List.Perm.refl _
  | cons y ys ih =>
    unfold insertVisible
    by_cases h : itemLt y x
    · simp only [h, if_true]
      exact (ih.cons y).trans (List.Perm.swap x y ys)
    · simp only [h, if_false]
      exact List.Perm.refl _

theorem sortVisible_perm (l : List VisibleItem) : (sortVisible l).Perm l := by
  induction l with
  | nil => exact List.Perm.refl _
  | cons x xs ih =>
    exact (insertVisible_perm x (sortVisible xs)).trans (ih.cons x)

theorem buildPreparedFrame_eq_of_empty (items : List SnapshotItem) (frustum : Frustum)
    (h : (cullAndDedup frustum items).visible.isEmpty = true) :
    buildPreparedFrame items frustum =
      ⟨[], [], (cullAndDedup frustum items).materials,
       (cullAndDedup frustum items).materialKeys⟩ := by
  simp only [buildPreparedFrame]
  rw [if_pos h]

theorem buildPreparedFrame_eq_of_nonempty (items : List SnapshotItem) (frustum : Frustum)
    (h : ¬(cullAndDedup frustum items).visible.isEmpty = true) :
    buildPreparedFrame items frustum =
      ⟨(batchLoop (sortVisible (cullAndDedup frustum items).visible) none 0
          ⟨none, 0, 0, 0⟩ [] []).2,
       (batchLoop (sortVisible (cullAndDedup frustum items).visible) none 0
          ⟨none, 0, 0, 0⟩ [] []).1,
       (cullAndDedup frustum items).materials,
       (cullAndDedup frustum items).materialKeys⟩ := by
  simp only [buildPreparedFrame]
  rw [if_neg h]

/-- C1: the batches of a prepared frame tile the instance array consecutively
from 0; the instance counts sum to the instance total; the instance total is
the number of snapshot items that survive culling; and every batch's material
index is a valid index into the frame's materials array. -/
theorem buildPreparedFrame_partition (items : List SnapshotItem) (frustum : Frustum) :
    batchesChain 0 (buildPreparedFrame items frustum).batches
        (buildPreparedFrame items frustum).instances.length
    ∧ ((buildPreparedFrame items frustum).batches.map Batch.instanceCount).sum
        = (buildPreparedFrame items frustum).instances.length
    ∧ (buildPreparedFrame items frustum).instances.length
        = items.countP (survivesCull frustum)
    ∧ ∀ b ∈ (buildPreparedFrame items frustum).batches,
        b.materialIndex < (buildPreparedFrame items frustum).materials.length := by
  obtain ⟨hlen, hvalid, hcount⟩ :=
    cullAndDedup_inv frustum items ⟨[], [], []⟩ rfl (by intro v hv; cases hv)
  have hcd : cullAndDedup frustum items = items.foldl (cullStep frustum) ⟨[], [], []⟩ := rfl
  by_cases hempty : (cullAndDedup frustum items).visible.isEmpty = true
  · rw [buildPreparedFrame_eq_of_empty items frustum hempty]
    have h0 : (cullAndDedup frustum items).visible.length = 0 := by
      revert hempty
      cases (cullAndDedup frustum items).visible <;> simp
    rw [hcd] at h0
    refine ⟨rfl, rfl, ?_, ?_⟩
    · show (0 : Nat) = items.countP (survivesCull frustum)
      simp only [List.length_nil] at hcount
      omega
    · intro b hb
      exact absurd hb (List.not_mem_nil b)
  · rw [buildPreparedFrame_eq_of_nonempty items frustum hempty]
    have hperm := sortVisible_perm (cullAndDedup frustum items).visible
    have hSmat : ∀ v ∈ sortVisible (cullAndDedup frustum items).visible,
        v.materialIndex < (cullAndDedup frustum items).materials.length := by
      intro v hv
      exact hvalid v (hperm.mem_iff.mp hv)
    have hspec := batchLoop_spec (sortVisible (cullAndDedup frustum items).visible)
      (cullAndDedup frustum items).materials.length hSmat
      (sortVisible (cullAndDedup frustum items).visible) none 0 ⟨none, 0, 0, 0⟩ [] []
      (fun v hv => hv) rfl rfl (fun _ => ⟨rfl, rfl, rfl, rfl, rfl⟩)
      (fun h => by cases h) (fun b hb => by cases hb) (fun h => by cases h)
      (fun b hb => by cases hb) (fun h => by cases h)
    refine ⟨hspec.1, ?_, ?_, hspec.2.2.2⟩
    · have hsum := batchesChain_sum _ 0 _ hspec.1
      simpa using hsum
    · show (batchLoop (sortVisible (cullAndDedup frustum items).visible) none 0
          ⟨none, 0, 0, 0⟩ [] []).2.length = items.countP (survivesCull frustum)
      rw [hspec.2.1]
      simp only [List.length_nil, Nat.zero_add]
      rw [hperm.length_eq, hcd]
      simp only [List.length_nil] at hcount
      omega

/-- C2: every instance slot covered by a batch holds the payload of a culled
visible item whose mesh identity and material slot are exactly those of the
batch (hence all instances of one batch share one (mesh, material-slot)
pair). -/
theorem buildPreparedFrame_batch_homogeneous (items : List SnapshotItem) (frustum : Frustum) :
    ∀ b ∈ (buildPreparedFrame items frustum).batches,
      ∀ i : Nat, b.startInstance ≤ i → i < b.startInstance + b.instanceCount →
        ∃ v : VisibleItem, v ∈ (cullAndDedup frustum items).visible
          ∧ (buildPreparedFrame items frustum).instances[i]? = some v.inst
          ∧ b.mesh = some v.mesh ∧ b.materialIndex = v.materialIndex := by
  obtain ⟨hlen, hvalid, hcount⟩ :=
    cullAndDedup_inv frustum items ⟨[], [], []⟩ rfl (by intro v hv; cases hv)
  intro b hb i h1 h2
  by_cases hempty : (cullAndDedup frustum items).visible.isEmpty = true
  · rw [buildPreparedFrame_eq_of_empty items frustum hempty] at hb
    exact absurd hb (List.not_mem_nil b)
  · rw [buildPreparedFrame_eq_of_nonempty items frustum hempty] at hb
    rw [buildPreparedFrame_eq_of_nonempty items frustum hempty]
    have hperm := sortVisible_perm (cullAndDedup frustum items).visible
    have hSmat : ∀ v ∈ sortVisible (cullAndDedup frustum items).visible,
        v.materialIndex < (cullAndDedup frustum items).materials.length := by
      intro v hv
      exact hvalid v (hperm.mem_iff.mp hv)
    have hspec := batchLoop_spec (sortVisible (cullAndDedup frustum items).visible)
      (cullAndDedup frustum items).materials.length hSmat
      (sortVisible (cullAndDedup frustum items).visible) none 0 ⟨none, 0, 0, 0⟩ [] []
      (fun v hv => hv) rfl rfl (fun _ => ⟨rfl, rfl, rfl, rfl, rfl⟩)
      (fun h => by cases h) (fun b hb => by cases hb) (fun h => by cases h)
      (fun b hb => by cases hb) (fun h => by cases h)
    obtain ⟨v, hv, hget, hm, hmat⟩ := hspec.2.2.1 b hb i h1 h2
    exact ⟨v, hperm.mem_iff.mp hv, hget, hm, hmat⟩

/-- A frustum whose six planes are all degenerate-zero (every sphere with
non-negative radius passes), used by concrete witnesses. -/
def zeroFrustum : Frustum := ⟨fun _ => ⟨0, 0, 0, 0⟩⟩

theorem zeroFrustum_intersects (s : Sphere) (h : (0 : ℚ) ≤ s.radius) :
    zeroFrustum.intersects s = true := by
  unfold Frustum.intersects
  rw [List.all_eq_true]
  intro i _
  have hnot : ¬(planeDistance (zeroFrustum.planes i) s.cx s.cy s.cz < -s.radius) := by
    unfold zeroFrustum planeDistance
    simp only [zero_mul, add_zero, zero_add, not_lt]
    linarith
  simp [hnot]

/-- A concrete opaque material used by the frame-building witnesses. -/
def sampleOpaqueMaterial : PbrMaterial :=
  { albedoX := 1065353216, albedoY := 1065353216, albedoZ := 1065353216, albedoW := 1065353216
    roughness := 1056964608, metallic := 0
    emissiveX := 0, emissiveY := 0, emissiveZ := 0
    blendMode := MaterialBlendMode.Opaque
    shadingModel := MaterialShadingModel.Pbr
    shader := []
    textures := ⟨[], [], [], []⟩
    scalars := [] }

/-- A concrete snapshot item (mesh pointer identity 3, zero-radius bounds at
the origin). -/
def wItem : SnapshotItem :=
  { mesh := some 3, transform := idTransform
    albedoX := 1, albedoY := 2, albedoZ := 3, albedoW := 4
    roughness := 5, metallic := 6
    material := sampleOpaqueMaterial, lightMask := 7, flags := 1
    boundsCenterX := 0, boundsCenterY := 0, boundsCenterZ := 0, boundsRadius := 0 }

/-- Two copies of the concrete item. -/
def wItems : List SnapshotItem := [wItem, wItem]

/-- The visible item produced from `wItem` (mesh 3, material slot 0). -/
def wVis : VisibleItem := ⟨3, instOf wItem, 0⟩

set_option maxRecDepth 8192 in
theorem buildPreparedFrame_wItems_eq :
    buildPreparedFrame wItems zeroFrustum =
      ⟨[instOf wItem, instOf wItem], [⟨some 3, 0, 0, 2⟩],
       [sampleOpaqueMaterial], [makeMaterialKeyHash sampleOpaqueMaterial]⟩ := by
  have hs : zeroFrustum.intersects (snapshotSphere wItem) = true := by
    apply zeroFrustum_intersects
    show (0 : ℚ) ≤ (snapshotSphere wItem).radius
    simp [snapshotSphere, wItem, idTransform]
  have hmesh : wItem.mesh = some 3 := rfl
  have hmat : wItem.material = sampleOpaqueMaterial := rfl
  have hstep1 : cullStep zeroFrustum ⟨[], [], []⟩ wItem =
      ⟨[sampleOpaqueMaterial], [makeMaterialKeyHash sampleOpaqueMaterial], [wVis]⟩ := by
    simp only [cullStep, hmesh, hs, hmat]
    simp [wVis]
  have hstep2 : cullStep zeroFrustum
      ⟨[sampleOpaqueMaterial], [makeMaterialKeyHash sampleOpaqueMaterial], [wVis]⟩ wItem =
      ⟨[sampleOpaqueMaterial], [makeMaterialKeyHash sampleOpaqueMaterial], [wVis, wVis]⟩ := by
    simp only [cullStep, hmesh, hs, hmat]
    simp [wVis]
  have hcd : cullAndDedup zeroFrustum wItems =
      ⟨[sampleOpaqueMaterial], [makeMaterialKeyHash sampleOpaqueMaterial], [wVis, wVis]⟩ := by
    show List.foldl (cullStep zeroFrustum) ⟨[], [], []⟩ [wItem, wItem] = _
    rw [List.foldl_cons, hstep1, List.foldl_cons, hstep2, List.foldl_nil]
  have hsort : sortVisible [wVis, wVis] = [wVis, wVis] := by
    simp [sortVisible, insertVisible, itemLt, wVis]
  have hloop : batchLoop [wVis, wVis] none 0 ⟨none, 0, 0, 0⟩ [] []
      = ([⟨some 3, 0, 0, 2⟩], [instOf wItem, instOf wItem]) := by
    rw [batchLoop, if_pos (by simp [wVis])]
    rw [batchLoop, if_neg (by simp [wVis])]
    rw [batchLoop]
    simp [flushBatch, wVis]
  simp only [buildPreparedFrame, hcd]
  rw [if_neg (by simp)]
  rw [hsort, hloop]

/-- Witness for C1 at a concrete input: two visible items of one mesh and one
material produce 2 instances (both items survive culling) and one batch with
a valid material index. -/
theorem buildPreparedFrame_partition_witness :
    (buildPreparedFrame wItems zeroFrustum).instances.length
      = wItems.countP (survivesCull zeroFrustum)
    ∧ (⟨some 3, 0, 0, 2⟩ : Batch).materialIndex
        < (buildPreparedFrame wItems zeroFrustum).materials.length := by
  refine ⟨(buildPreparedFrame_partition wItems zeroFrustum).2.2.1, ?_⟩
  exact (buildPreparedFrame_partition wItems zeroFrustum).2.2.2 ⟨some 3, 0, 0, 2⟩
    (by rw [buildPreparedFrame_wItems_eq]; exact List.mem_singleton.mpr rfl)

/-- Witness for C2 at a concrete input: instance slot 1 of the single batch
traces back to a culled visible item with the batch's mesh and material
slot. -/
theorem buildPreparedFrame_batch_homogeneous_witness :
    ∃ v : VisibleItem, v ∈ (cullAndDedup zeroFrustum wItems).visible
      ∧ (buildPreparedFrame wItems zeroFrustum).instances[1]? = some v.inst
      ∧ (⟨some 3, 0, 0, 2⟩ : Batch).mesh = some v.mesh
      ∧ (⟨some 3, 0, 0, 2⟩ : Batch).materialIndex = v.materialIndex :=
  buildPreparedFrame_batch_homogeneous wItems zeroFrustum ⟨some 3, 0, 0, 2⟩
    (by rw [buildPreparedFrame_wItems_eq]; exact List.mem_singleton.mpr rfl)
    1 (by decide) (by decide)

/-! ## The async prep worker (`EnqueueBuild` lines 1038-1050,
`ConsumeReadyFrame` lines 1052-1061, `StartWorker` lines 446-475) -/

/-- The pending/ready hand-off state protected by `mWorkMutex`. -/
structure PrepWorkerState where
  pendingItems : List SnapshotItem
  pendingFrustum : Frustum
  pendingValid : Bool
  readyFrame : PreparedFrame
  readyValid : Bool

/-- `EnqueueBuild`: publish the snapshot and frustum into the pending slot
and mark it valid (the vector swap that recycles capacity does not change the
published contents). -/
def enqueueBuild (st : PrepWorkerState) (items : List SnapshotItem) (frustum : Frustum) :
    PrepWorkerState :=
  { st with pendingItems := items, pendingFrustum := frustum, pendingValid := true }

/-- One wake-up of the worker loop body (lines 452-474): if work is pending,
take it, build the prepared frame, and publish it into the ready slot;
otherwise keep waiting. -/
def workerStep (st : PrepWorkerState) : PrepWorkerState :=
  if st.pendingValid then
    { st with
      pendingValid := false
      readyFrame := buildPreparedFrame st.pendingItems st.pendingFrustum
      readyValid := true }
  else st

/-- `ConsumeReadyFrame`: return failure without waiting when no frame is
ready; otherwise move the frame out and clear the ready flag.  The first
component is the return value, the second the moved-out frame (`none` when
the call fails and `outFrame` is untouched). -/
def consumeReadyFrame (st : PrepWorkerState) :
    Bool × Option PreparedFrame × PrepWorkerState :=
  if st.readyValid = false then (false, none, st)
  else (true, some st.readyFrame, { st with readyValid := false })

/-- C4: `ConsumeReadyFrame` succeeds exactly when a ready frame is present
and always leaves the ready slot empty; after an `EnqueueBuild` whose
background build has completed, the first consume returns the frame built
from the enqueued snapshot and frustum, and an immediate second consume
returns failure. -/
theorem consumeReadyFrame_spec (st : PrepWorkerState) (items : List SnapshotItem)
    (frustum : Frustum) :
    ((consumeReadyFrame st).1 = true ↔ st.readyValid = true)
    ∧ (consumeReadyFrame st).2.2.readyValid = false
    ∧ (consumeReadyFrame (workerStep (enqueueBuild st items frustum))).1 = true
    ∧ (consumeReadyFrame (workerStep (enqueueBuild st items frustum))).2.1
        = some (buildPreparedFrame items frustum)
    ∧ (consumeReadyFrame
        (consumeReadyFrame (workerStep (enqueueBuild st items frustum))).2.2).1 = false := by
  refine ⟨?_, ?_, ?_, ?_, ?_⟩
  · unfold consumeReadyFrame
    cases h : st.readyValid <;> simp [h]
  · unfold consumeReadyFrame
    cases h : st.readyValid <;> simp [h]
  · simp [consumeReadyFrame, workerStep, enqueueBuild]
  · simp [consumeReadyFrame, workerStep, enqueueBuild]
  · simp [consumeReadyFrame, workerStep, enqueueBuild]

/-! ## Geometry-pass draw recording (`RenderGeometryPass`, deferred path
lines 2703-2895, immediate fallback lines 2898-2988) -/

/-- The fields of a `Mesh` read by the draw loops: buffer nullness and the
index/vertex counts passed to the draw calls. -/
structure MeshGpu where
  vb : Bool
  ib : Bool
  indexCount : Nat
  vertexCount : Nat
deriving DecidableEq, Repr

/-- A batch as consumed by the geometry pass, with the mesh pointer resolved
to the fields the pass reads (`none` = null mesh pointer). -/
structure GBatch where
  mesh : Option MeshGpu
  materialIndex : Nat
  startInstance : Nat
  instanceCount : Nat
deriving DecidableEq, Repr

/-- One recorded draw call. -/
structure Draw where
  indexed : Bool
  count : Nat
  instanceCount : Nat
  startInstance : Nat
  materialIndex : Nat
  mesh : MeshGpu
deriving DecidableEq, Repr

/-- The per-batch draw emission, identical in the deferred loop (lines
2795-2876) and the immediate loop (lines 2914-2988): skip null mesh or null
vertex buffer; draw indexed when the mesh has an index buffer and a non-empty
index list, else non-indexed.  The current-program/material trackers only
avoid redundant state rebinds and do not alter which draw is issued. -/
def drawOfBatch (b : GBatch) : List Draw :=
  match b.mesh with
  | none => []
  | some m =>
    if m.vb = false then []
    else if m.ib = true ∧ m.indexCount ≠ 0 then
      [⟨true, m.indexCount, b.instanceCount, b.startInstance, b.materialIndex, m⟩]
    else
      [⟨false, m.vertexCount, b.instanceCount, b.startInstance, b.materialIndex, m⟩]

/-- The immediate (sequential fallback) path: one pass over all batches. -/
def recordSequential (batches : List GBatch) : List Draw :=
  batches.flatMap drawOfBatch

/-- The deferred (parallel) path: batches are split into
`⌈batchCount / numWorkers⌉`-sized contiguous chunks, one per deferred
context (all contexts are non-null by construction, lines 413-418), each
chunk is recorded independently, and the command lists are replayed in
worker-index order (lines 2884-2892), which concatenates the chunk
recordings. -/
def recordParallel (batches : List GBatch) (numWorkers : Nat) : List Draw :=
  let chunk := (batches.length + numWorkers - 1) / numWorkers
  (List.range numWorkers).flatMap fun i =>
    ((batches.drop (i * chunk)).take chunk).flatMap drawOfBatch

theorem chunks_join {α : Type} (w : Nat) :
    ∀ (l : List α) (c : Nat), l.length ≤ w * c →
      ((List.range w).flatMap fun i => (l.drop (i * c)).take c) = l := by
  induction w with
  | zero =>
    intro l c h
    have : l = [] := List.eq_nil_of_length_eq_zero (by omega)
    subst this
    rfl
  | succ n ih =>
    intro l c h
    rw [List.range_succ_eq_map]
    rw [List.flatMap_cons, List.flatMap_map]
    have hexp : (n + 1) * c = n * c + c := by ring
    have hfirst : (l.drop (0 * c)).take c = l.take c := by simp
    have hrest : ∀ i : Nat, (l.drop ((i + 1) * c)).take c = ((l.drop c).drop (i * c)).take c := by
      intro i
      rw [List.drop_drop]
      have hic : (i + 1) * c = c + i * c := by ring
      rw [hic]
    calc (l.drop (0 * c)).take c
          ++ (List.range n).flatMap (fun i => (l.drop ((i + 1) * c)).take c)
        = l.take c ++ (List.range n).flatMap fun i => ((l.drop c).drop (i * c)).take c := by
          rw [hfirst]
          congr 1
          exact List.flatMap_congr fun i _ => hrest i
    _ = l.take c ++ l.drop c := by
          rw [ih (l.drop c) c (by simp only [List.length_drop]; omega)]
    _ = l := List.take_append_drop c l

/-- C6: with at least one deferred context, the parallel recording path
replayed in worker-index order issues exactly the same draw sequence (hence
the same multiset of draws) as the immediate sequential fallback. -/
theorem recordParallel_eq_sequential (batches : List GBatch) (numWorkers : Nat)
    (hw : 0 < numWorkers) :
    recordParallel batches numWorkers = recordSequential batches := by
  unfold recordParallel recordSequential
  have hchunk : batches.length ≤ numWorkers
      * ((batches.length + numWorkers - 1) / numWorkers) := by
    have h1 := Nat.div_add_mod (batches.length + numWorkers - 1) numWorkers
    have h2 := Nat.mod_lt (batches.length + numWorkers - 1) hw
    omega
  calc ((List.range numWorkers).flatMap fun i =>
          ((batches.drop (i * ((batches.length + numWorkers - 1) / numWorkers))).take
            ((batches.length + numWorkers - 1) / numWorkers)).flatMap drawOfBatch)
      = ((List.range numWorkers).flatMap fun i =>
          (batches.drop (i * ((batches.length + numWorkers - 1) / numWorkers))).take
            ((batches.length + numWorkers - 1) / numWorkers)).flatMap drawOfBatch := by
        rw [List.flatMap_assoc]
  _ = batches.flatMap drawOfBatch := by
        rw [chunks_join numWorkers batches _ hchunk]

/-- Witness for C6 at a concrete input: three batches (one with a null vertex
buffer), three workers. -/
theorem recordParallel_eq_sequential_witness :
    recordParallel
      [⟨some ⟨true, true, 36, 24⟩, 0, 0, 5⟩,
       ⟨some ⟨false, false, 0, 8⟩, 1, 5, 2⟩,
       ⟨some ⟨true, false, 0, 9⟩, 1, 7, 4⟩] 3
    = recordSequential
      [⟨some ⟨true, true, 36, 24⟩, 0, 0, 5⟩,
       ⟨some ⟨false, false, 0, 8⟩, 1, 5, 2⟩,
       ⟨some ⟨true, false, 0, 9⟩, 1, 7, 4⟩] :=
  recordParallel_eq_sequential
    [⟨some ⟨true, true, 36, 24⟩, 0, 0, 5⟩,
     ⟨some ⟨false, false, 0, 8⟩, 1, 5, 2⟩,
     ⟨some ⟨true, false, 0, 9⟩, 1, 7, 4⟩] 3 (by decide)

/-! ## Cascade split computation (`ShadowsD3D11::ComputeCascades`, shadows.cpp
lines 334-367).  The float arithmetic (including `std::pow`) is modelled over
`ℝ`. -/

/-- `const float nearZ = (cameraNearZ > 1e-4f) ? cameraNearZ : 0.1f;` -/
noncomputable def nearZeff (cameraNearZ : ℝ) : ℝ :=
  if cameraNearZ > 1 / 10000 then cameraNearZ else 1 / 10

/-- `const float farZ = (cameraFarZ > nearZ + 1e-3f) ? cameraFarZ : (nearZ + 100.0f);` -/
noncomputable def farZeff (cameraNearZ cameraFarZ : ℝ) : ℝ :=
  if cameraFarZ > nearZeff cameraNearZ + 1 / 1000 then cameraFarZ
  else nearZeff cameraNearZ + 100

/-- `ndcFromViewZ` (lines 338-344): `a + b / zz` with the view depth clamped
to at least `nearZ + 1e-4`. -/
noncomputable def ndcFromViewZ (nearZ farZ z : ℝ) : ℝ :=
  let a := farZ / (farZ - nearZ)
  let b := (-nearZ * farZ) / (farZ - nearZ)
  let zz := if z > nearZ + 1 / 10000 then z else nearZ + 1 / 10000
  a + b / zz

/-- Clamping of the cascade count to `1 .. kMaxCascades` (lines 346-350,
`kMaxCascades = 3`). -/
def clampCascadeCount (n : Nat) : Nat :=
  if n < 1 then 1 else if n > 3 then 3 else n

/-- The view-space split depth of cascade `i` (0-based; lines 354-361):
`lambda * logSplit + (1 - lambda) * linSplit` at `fi = (i+1)/N`. -/
noncomputable def splitViewZ (nearZ farZ lam : ℝ) (N i : Nat) : ℝ :=
  let fi : ℝ := ((i : ℝ) + 1) / (N : ℝ)
  lam * (nearZ * (farZ / nearZ) ^ fi) + (1 - lam) * (nearZ + (farZ - nearZ) * fi)

/-- The per-cascade NDC split depths as the code consumes them (lines
363-367 and 459-465): for the clamped count `N`, cascade `c < N - 1` uses
`ndcFromViewZ(split c)` and the last cascade of a 3-cascade setup uses the
hard-coded `1.0` of `outCascadeSplitsNdc[2]`. -/
noncomputable def cascadeSplitsNdc (cameraNearZ cameraFarZ lamRaw : ℝ) (Nraw : Nat) :
    List ℝ :=
  let n := nearZeff cameraNearZ
  let f := farZeff cameraNearZ cameraFarZ
  let N := clampCascadeCount Nraw
  let lam := max 0 (min 1 lamRaw)
  if N = 1 then [ndcFromViewZ n f (splitViewZ n f lam 1 0)]
  else if N = 2 then
    [ndcFromViewZ n f (splitViewZ n f lam 2 0), ndcFromViewZ n f (splitViewZ n f lam 2 1)]
  else
    [ndcFromViewZ n f (splitViewZ n f lam 3 0), ndcFromViewZ n f (splitViewZ n f lam 3 1), 1]

theorem nearZeff_gt (cameraNearZ : ℝ) : 1 / 10000 < nearZeff cameraNearZ := by
  unfold nearZeff
  split_ifs with h
  · exact h
  · norm_num

theorem farZeff_gt (cameraNearZ cameraFarZ : ℝ) :
    nearZeff cameraNearZ + 1 / 1000 < farZeff cameraNearZ cameraFarZ := by
  unfold farZeff
  split_ifs with h
  · exact h
  · linarith

theorem convex_lt (lam a1 a2 b1 b2 : ℝ) (h0 : 0 ≤ lam) (h1 : lam ≤ 1)
    (ha : a1 < a2) (hb : b1 < b2) :
    lam * a1 + (1 - lam) * b1 < lam * a2 + (1 - lam) * b2 := by
  rcases eq_or_lt_of_le h0 with h | h
  · rw [← h]
    linarith
  · have hA : lam * a1 < lam * a2 := by exact (mul_lt_mul_left h).mpr ha
    have hB : (1 - lam) * b1 ≤ (1 - lam) * b2 :=
      mul_le_mul_of_nonneg_left (le_of_lt hb) (by linarith)
    linarith

theorem convex_gt (lam x y c : ℝ) (h0 : 0 ≤ lam) (h1 : lam ≤ 1)
    (hx : c < x) (hy : c < y) : c < lam * x + (1 - lam) * y := by
  have h := convex_lt lam c x c y h0 h1 hx hy
  linarith

theorem convex_lt_const (lam x y c : ℝ) (h0 : 0 ≤ lam) (h1 : lam ≤ 1)
    (hx : x < c) (hy : y < c) : lam * x + (1 - lam) * y < c := by
  have h := convex_lt lam x c y c h0 h1 hx hy
  linarith

theorem split_lt_split (n f lam : ℝ) (hn : 0 < n) (hnf : n < f)
    (h0 : 0 ≤ lam) (h1 : lam ≤ 1) (N i j : Nat) (hN : 0 < N) (hij : i < j) :
    splitViewZ n f lam N i < splitViewZ n f lam N j := by
  unfold splitViewZ
  have hNr : (0 : ℝ) < (N : ℝ) := by exact_mod_cast hN
  have hfi : ((i : ℝ) + 1) / (N : ℝ) < ((j : ℝ) + 1) / (N : ℝ) := by
    rw [div_lt_div_iff_of_pos_right hNr]
    have : (i : ℝ) < (j : ℝ) := by exact_mod_cast hij
    linarith
  have hr : 1 < f / n := (one_lt_div hn).mpr hnf
  refine convex_lt lam _ _ _ _ h0 h1 ?_ ?_
  · exact (mul_lt_mul_left hn).mpr ((Real.rpow_lt_rpow_left_iff hr).mpr hfi)
  · exact add_lt_add_left ((mul_lt_mul_left (sub_pos.mpr hnf)).mpr hfi) n

theorem splitViewZ_fi_one (n f lam : ℝ) (hn : 0 < n) (fi : ℝ) (hfi : fi = 1) :
    lam * (n * (f / n) ^ fi) + (1 - lam) * (n + (f - n) * fi) = f := by
  subst hfi
  rw [Real.rpow_one]
  have hn' : n ≠ 0 := ne_of_gt hn
  field_simp
  ring

theorem split_one_zero (n f lam : ℝ) (hn : 0 < n) : splitViewZ n f lam 1 0 = f := by
  unfold splitViewZ
  exact splitViewZ_fi_one n f lam hn _ (by norm_num)

theorem split_two_one (n f lam : ℝ) (hn : 0 < n) : splitViewZ n f lam 2 1 = f := by
  unfold splitViewZ
  exact splitViewZ_fi_one n f lam hn _ (by norm_num)

theorem split_lt_f (n f lam : ℝ) (hn : 0 < n) (hnf : n < f)
    (h0 : 0 ≤ lam) (h1 : lam ≤ 1) (N i : Nat) (hN : 0 < N) (hiN : i + 1 < N) :
    splitViewZ n f lam N i < f := by
  unfold splitViewZ
  have hNr : (0 : ℝ) < (N : ℝ) := by exact_mod_cast hN
  have hfi1 : ((i : ℝ) + 1) / (N : ℝ) < 1 := by
    rw [div_lt_one hNr]
    exact_mod_cast hiN
  have hfi0 : 0 < ((i : ℝ) + 1) / (N : ℝ) := by positivity
  have hr : 1 < f / n := (one_lt_div hn).mpr hnf
  refine convex_lt_const lam _ _ f h0 h1 ?_ ?_
  · have : (f / n) ^ (((i : ℝ) + 1) / (N : ℝ)) < (f / n) ^ (1 : ℝ) :=
      (Real.rpow_lt_rpow_left_iff hr).mpr hfi1
    rw [Real.rpow_one] at this
    calc n * (f / n) ^ (((i : ℝ) + 1) / (N : ℝ)) < n * (f / n) := (mul_lt_mul_left hn).mpr this
    _ = f := by field_simp
  · have hfn : 0 < f - n := sub_pos.mpr hnf
    nlinarith

/-- The clamp inside `ndcFromViewZ` is a `max`. -/
theorem zz_eq_max (c z : ℝ) : (if z > c then z else c) = max c z := by
  split_ifs with h
  · exact (max_eq_right (le_of_lt h)).symm
  · exact (max_eq_left (le_of_not_lt h)).symm

theorem ndcFromViewZ_eq (n f z : ℝ) :
    ndcFromViewZ n f z = f / (f - n) + (-n * f / (f - n)) / max (n + 1 / 10000) z := by
  unfold ndcFromViewZ
  rw [zz_eq_max]

theorem ndc_strict_mono (n f z z' : ℝ) (hn : 0 < n) (hnf : n < f)
    (hzz : max (n + 1 / 10000) z < max (n + 1 / 10000) z') :
    ndcFromViewZ n f z < ndcFromViewZ n f z' := by
  rw [ndcFromViewZ_eq, ndcFromViewZ_eq]
  have hb : -n * f / (f - n) < 0 := by
    apply div_neg_of_neg_of_pos
    · nlinarith
    · linarith
  have hz0 : 0 < max (n + 1 / 10000) z :=
    lt_of_lt_of_le (by linarith) (le_max_left _ _)
  have hinv : 1 / max (n + 1 / 10000) z' < 1 / max (n + 1 / 10000) z :=
    one_div_lt_one_div_of_lt hz0 hzz
  have := mul_lt_mul_of_neg_left hinv hb
  rw [mul_one_div, mul_one_div] at this
  linarith

theorem ndc_of_far (n f : ℝ) (hn : 0 < n) (hnf : n < f) (hgap : n + 1 / 10000 < f) :
    ndcFromViewZ n f f = 1 := by
  rw [ndcFromViewZ_eq]
  rw [max_eq_right (le_of_lt hgap)]
  have h1 : f - n ≠ 0 := by linarith
  have h2 : f ≠ 0 := by linarith
  field_simp
  ring

/-- The second split of a 3-cascade setup clears the `nearZ + 1e-4` clamp of
`ndcFromViewZ`: the pure-log split `n * (f/n)^(2/3)` exceeds `n + 1/10000`
whenever `n > 1/10000` and `f - n > 1/1000` (which the near/far guards of
`ComputeCascades` establish). -/
theorem rpow23_bound (n f : ℝ) (hn : 1 / 10000 < n) (hnf : n < f)
    (hgap : 1 / 1000 < f - n) :
    n + 1 / 10000 < n * (f / n) ^ ((2 : ℝ) / 3) := by
  have hn0 : 0 < n := lt_trans (by norm_num) hn
  have hr : 1 < f / n := (one_lt_div hn0).mpr hnf
  have hr0 : 0 < f / n := lt_trans one_pos hr
  set u := (f / n) ^ ((1 : ℝ) / 3) with hu
  have hu1 : 1 < u :=
    (Real.one_lt_rpow_iff_of_pos hr0).mpr (Or.inl ⟨hr, by norm_num⟩)
  have hu3 : u ^ (3 : ℕ) = f / n := by
    rw [hu, ← Real.rpow_natCast ((f / n) ^ ((1 : ℝ) / 3)) 3,
      ← Real.rpow_mul (le_of_lt hr0)]
    norm_num
  have hu2 : (f / n) ^ ((2 : ℝ) / 3) = u ^ (2 : ℕ) := by
    rw [hu, ← Real.rpow_natCast ((f / n) ^ ((1 : ℝ) / 3)) 2,
      ← Real.rpow_mul (le_of_lt hr0)]
    norm_num
  rw [hu2]
  have hfn : f - n = n * (u ^ (3 : ℕ) - 1) := by
    rw [hu3]
    have hne : n ≠ 0 := ne_of_gt hn0
    field_simp
  by_cases hcase : 2 ≤ u
  · have h4 : 0 ≤ (u - 2) * (u + 2) :=
      mul_nonneg (by linarith) (by linarith)
    nlinarith [mul_nonneg (le_of_lt hn0) h4]
  · push_neg at hcase
    have hgap' : 1 / 1000 < n * (u ^ (3 : ℕ) - 1) := hfn ▸ hgap
    have hupos : (0 : ℝ) < u + 1 := by linarith
    have hs : (0 : ℝ) < u ^ (2 : ℕ) + u + 1 := by nlinarith
    have hkey : n * (u ^ (2 : ℕ) - 1) * (u ^ (2 : ℕ) + u + 1)
        = n * (u ^ (3 : ℕ) - 1) * (u + 1) := by ring
    have hA : (1 / 1000 : ℝ) * (u + 1) < n * (u ^ (3 : ℕ) - 1) * (u + 1) :=
      mul_lt_mul_of_pos_right hgap' hupos
    by_contra hle
    push_neg at hle
    have hle' : n * (u ^ (2 : ℕ) - 1) ≤ 1 / 10000 := by nlinarith
    have hB : n * (u ^ (2 : ℕ) - 1) * (u ^ (2 : ℕ) + u + 1)
        ≤ (1 / 10000) * (u ^ (2 : ℕ) + u + 1) :=
      mul_le_mul_of_nonneg_right hle' (le_of_lt hs)
    nlinarith [mul_pos (by linarith : (0 : ℝ) < 2 - u) (by linarith : (0 : ℝ) < u)]

theorem split_three_one_gt_clamp (n f lam : ℝ) (hn : 1 / 10000 < n) (hnf : n < f)
    (hgap : 1 / 1000 < f - n) (h0 : 0 ≤ lam) (h1 : lam ≤ 1) :
    n + 1 / 10000 < splitViewZ n f lam 3 1 := by
  unfold splitViewZ
  have hfi : (((1 : Nat) : ℝ) + 1) / ((3 : Nat) : ℝ) = (2 : ℝ) / 3 := by norm_num
  rw [hfi]
  refine convex_gt lam _ _ _ h0 h1 ?_ ?_
  · exact rpow23_bound n f hn hnf hgap
  · nlinarith

/-- C5: the cascade NDC split depths computed by `ComputeCascades` (with its
own near/far/lambda/count clamps) are strictly increasing, and a single
cascade has the far-plane NDC depth 1 as its only split.  The split formula
itself is the definition `splitViewZ`. -/
theorem cascadeSplits_spec (cameraNearZ cameraFarZ lamRaw : ℝ) (Nraw : Nat) :
    (cascadeSplitsNdc cameraNearZ cameraFarZ lamRaw Nraw).Chain' (· < ·)
    ∧ (clampCascadeCount Nraw = 1 →
        cascadeSplitsNdc cameraNearZ cameraFarZ lamRaw Nraw = [1]) := by
  unfold cascadeSplitsNdc
  set n := nearZeff cameraNearZ with hn_def
  set f := farZeff cameraNearZ cameraFarZ with hf_def
  set lam := max 0 (min 1 lamRaw) with hlam_def
  have hn4 : 1 / 10000 < n := nearZeff_gt _
  have hn0 : 0 < n := lt_trans (by norm_num) hn4
  have hgapf : n + 1 / 1000 < f := farZeff_gt _ _
  have hnf : n < f := by linarith
  have hgap4 : n + 1 / 10000 < f := by linarith
  have h0 : 0 ≤ lam := le_max_left _ _
  have h1 : lam ≤ 1 := max_le (by norm_num) (min_le_left _ _)
  have hNcases : clampCascadeCount Nraw = 1 ∨ clampCascadeCount Nraw = 2
      ∨ clampCascadeCount Nraw = 3 := by
    unfold clampCascadeCount
    split_ifs <;> omega
  rcases hNcases with hN | hN | hN <;> rw [hN]
  · constructor
    · norm_num [List.chain'_singleton]
    · intro _
      norm_num
      rw [split_one_zero n f lam hn0, ndc_of_far n f hn0 hnf hgap4]
  · constructor
    · norm_num [List.chain'_pair]
      apply ndc_strict_mono n f _ _ hn0 hnf
      rw [split_two_one n f lam hn0]
      rw [max_eq_right (le_of_lt hgap4)]
      exact max_lt hgap4 (split_lt_f n f lam hn0 hnf h0 h1 2 0 (by norm_num) (by norm_num))
    · intro hcontra
      cases hcontra
  · constructor
    · have hs1 : n + 1 / 10000 < splitViewZ n f lam 3 1 :=
        split_three_one_gt_clamp n f lam hn4 hnf (by linarith) h0 h1
      norm_num [List.chain'_cons, List.chain'_pair]
      constructor
      · apply ndc_strict_mono n f _ _ hn0 hnf
        rw [max_eq_right (le_of_lt hs1)]
        exact max_lt hs1
          (split_lt_split n f lam hn0 hnf h0 h1 3 0 1 (by norm_num) (by norm_num))
      · rw [← ndc_of_far n f hn0 hnf hgap4]
        apply ndc_strict_mono n f _ _ hn0 hnf
        rw [max_eq_right (le_of_lt hgap4)]
        exact max_lt hgap4 (split_lt_f n f lam hn0 hnf h0 h1 3 1 (by norm_num) (by norm_num))
    · intro hcontra
      cases hcontra

/-- Witness for C5 at a concrete input: cascade count 1 (clamped count 1)
yields the single split depth 1.0. -/
theorem cascadeSplits_spec_witness :
    (cascadeSplitsNdc 1 100 (1 / 2) 1).Chain' (· < ·)
    ∧ cascadeSplitsNdc 1 100 (1 / 2) 1 = [1] :=
  ⟨(cascadeSplits_spec 1 100 (1 / 2) 1).1, (cascadeSplits_spec 1 100 (1 / 2) 1).2 rfl⟩

end KingSpec
